import Mathlib

set_option synthInstance.maxSize 512

/-!
Verification of the paper-driven experiment pipeline: a shallow embedding of
`paper_registry.py` and `paper_experiment_runner.py`.

Conventions of the embedding:
* Python numbers (ints and floats that hold exact small decimals) are `ℕ`/`ℤ`/`ℚ`;
  fractional literals such as `0.5` are written `mkRat 1 2` (the same rational).
* pandas dataframes are ordered association lists of named columns; a cell is a
  number, a string, or NaN (`Cell.null`); a column is "object dtype" when it holds
  at least one string, mirroring what `read_csv` infers.
* calls into the external ML library (fit / predict / predict_proba /
  cross_val_score) are oracles passed as function arguments; fallible external
  calls return `Except`/`Option`.
* Python's `sorted` (a stable sort) is modelled by a stable insertion sort;
  string comparison is code-point lexicographic, as in Python.
-/

/-- Code-point lexicographic order on strings, as Python compares `str`. -/
def strLeB (a b : String) : Bool :=
  go a.data b.data
where go : List Char → List Char → Bool
  | [], _ => true
  | _ :: _, [] => false
  | x :: xs, y :: ys =>
    if x.val < y.val then true else if y.val < x.val then false else go xs ys

/-- Insert `a` into `l`, keeping `a` before the first element `x` with `le a x`.
Used to model Python's stable `sorted`. -/
def insertBy {α : Type} (le : α → α → Bool) (a : α) : List α → List α
  | [] => [a]
  | x :: xs => if le a x then a :: x :: xs else x :: insertBy le a xs

/-- Stable insertion sort: `isortBy le` sorts with `le`, and elements that
compare equal keep their original relative order (models Python `sorted`). -/
def isortBy {α : Type} (le : α → α → Bool) : List α → List α
  | [] => []
  | x :: xs => insertBy le x (isortBy le xs)

/-- Largest element of a list of rationals (numpy-style `max`; 0 on `[]`,
which never occurs at call sites). -/
def listMaxD : List ℚ → ℚ
  | [] => 0
  | x :: xs => xs.foldl max x

/-- Smallest element of a list of rationals (numpy-style `min`; 0 on `[]`). -/
def listMinD : List ℚ → ℚ
  | [] => 0
  | x :: xs => xs.foldl min x

/-- Python `f"{x:.0%}"`, approximately: percentage rounded to whole percent.
(Python rounds half-to-even; no claim depends on the rendering.) -/
def fmtPct0 (q : ℚ) : String :=
  toString (round (q * 100)) ++ "%"

/-- Python `f"{x:.1f}"`, approximately, for the nonnegative values that occur. -/
def fmtFix1 (q : ℚ) : String :=
  toString (round (q * 10) / 10) ++ "." ++ toString ((round (q * 10)) % 10)

/-- Python `f"{x:.4f}"`, approximately, for the nonnegative values that occur. -/
def fmtFix4 (q : ℚ) : String :=
  let n := round (q * 10000)
  let frac := toString (n % 10000)
  toString (n / 10000) ++ "." ++ ("0000".take (4 - frac.length) ++ frac)

/-- Python `round(x, 4)` (up to tie-breaking, which no claim exercises). -/
def roundTo4 (q : ℚ) : ℚ :=
  mkRat (round (q * 10000)) 10000

-- ─── Dataset context (`build_dataset_context`) ─────────────────────────────

/-- The context dict produced by `build_dataset_context` in `paper_registry.py`. -/
structure DatasetContext where
  problem_type : String
  train_rows : ℕ
  num_features : ℕ
  numeric_count : ℕ
  categorical_count : ℕ
  numeric_ratio : ℚ
  has_categoricals : Bool
  has_missing : Bool
  missing_columns : List String
  class_imbalance_ratio : ℚ
  target_column : Option String
  train_file : Option String
deriving DecidableEq

/-- Per-column entry of the analysis document (`columns_info` values). -/
structure ColumnInfo where
  dtype : String
  missing_pct : ℚ
  unique : ℕ
  feature_type : String
deriving DecidableEq

/-- Per-file entry of the analysis document. -/
structure FileInfo where
  rows : ℕ
  columns_info : List (String × ColumnInfo)
deriving DecidableEq

/-- The analysis.json document fed to `build_dataset_context`: the `_meta`
block plus per-file statistics.  `class_balance` values are the target's value
counts; they are numbers in the JSON, hence `ℚ` here. -/
structure Analysis where
  train_file : Option String
  target_column : Option String
  class_balance : List (String × ℚ)
  files : List (String × FileInfo)
deriving DecidableEq

/-- Lookup in a string-keyed association list (Python `dict.get`). -/
def alistGet? {β : Type} (l : List (String × β)) (k : String) : Option β :=
  (l.find? (fun p => p.1 == k)).map (·.2)

/-- `build_dataset_context` from `paper_registry.py`: parse the analysis
document into the matching context.  Faithful translation; the
`isinstance(counts[0], (int, float))` dispatch is vacuous here because the
embedding types `class_balance` values as numbers. -/
def build_dataset_context (analysis : Analysis) : DatasetContext :=
  let train_info : FileInfo :=
    (match analysis.train_file with
     | some f => (alistGet? analysis.files f).getD ⟨0, []⟩
     | none => ⟨0, []⟩)
  let cols_info := train_info.columns_info
  let target_col := analysis.target_column
  let feature_cols := cols_info.filter (fun p => !(some p.1 == target_col))
  let num_features := feature_cols.length
  let numeric_count :=
    feature_cols.countP (fun p => p.2.feature_type == "continuous" || p.2.feature_type == "discrete")
  let categorical_count :=
    feature_cols.countP (fun p => p.2.feature_type == "categorical" || p.2.feature_type == "high_cardinality")
  let missing_cols := (feature_cols.filter (fun p => decide (p.2.missing_pct > 5))).map (·.1)
  let counts := analysis.class_balance.map (·.2)
  let imbalance_ratio : ℚ :=
    if analysis.class_balance ≠ [] ∧ 2 ≤ analysis.class_balance.length then
      listMaxD counts / max (listMinD counts) 1
    else 1
  let target_info : ColumnInfo :=
    (match target_col with
     | some t => (alistGet? cols_info t).getD ⟨"", 0, 0, ""⟩
     | none => ⟨"", 0, 0, ""⟩)
  let problem_type :=
    if target_info.unique ≤ 20 ∧ (target_info.dtype = "int64" ∨ target_info.dtype = "object" ∨ target_info.dtype = "bool") then
      "classification"
    else "regression"
  { problem_type := problem_type
    train_rows := train_info.rows
    num_features := num_features
    numeric_count := numeric_count
    categorical_count := categorical_count
    numeric_ratio := (numeric_count : ℚ) / (max num_features 1 : ℚ)
    has_categoricals := decide (categorical_count > 0)
    has_missing := decide (missing_cols.length > 0)
    missing_columns := missing_cols
    class_imbalance_ratio := imbalance_ratio
    target_column := target_col
    train_file := analysis.train_file }

-- ─── Paper registry ────────────────────────────────────────────────────────

/-- One registry descriptor.  The `build_pipeline` factory constructs external
ML-library objects and is not part of the matching data model; pipeline
construction is modelled as an oracle where a claim needs it. -/
structure PaperEntry where
  paper_id : String
  paper_title : String
  technique : String
  description : String
  relevance_fn : DatasetContext → Bool
  relevance_reason : DatasetContext → String

/-- A match produced by the Relevance Matcher. -/
structure PaperMatch where
  paper_id : String
  paper_title : String
  technique : String
  description : String
  reason : String
deriving DecidableEq

/-- `PAPER_REGISTRY` from `paper_registry.py`: the fixed ordered catalog of
descriptors, with each predicate and reason generator translated literally
(`0.5` is `mkRat 1 2`, and so on). -/
def PAPER_REGISTRY : List PaperEntry := [
  { paper_id := "srivastava2014"
    paper_title := "Dropout: A Simple Way to Prevent Neural Networks from Overfitting"
    technique := "Dropout Regularization"
    description := "Strong L2 regularization mimics dropout for tabular models"
    relevance_fn := fun ctx => decide (ctx.train_rows < 5000) || decide (ctx.num_features > 15)
    relevance_reason := fun ctx =>
      if ctx.train_rows < 5000 then s!"Small dataset ({ctx.train_rows} rows)"
      else s!"Many features ({ctx.num_features})" },
  { paper_id := "ioffe2015"
    paper_title := "Batch Normalization: Accelerating Deep Network Training"
    technique := "Aggressive Scaling"
    description := "QuantileTransformer normalizes feature distributions like BatchNorm"
    relevance_fn := fun ctx => decide (ctx.numeric_ratio > mkRat 1 2)
    relevance_reason := fun ctx => s!"High numeric ratio ({fmtPct0 ctx.numeric_ratio})" },
  { paper_id := "kingma2015"
    paper_title := "Adam: A Method for Stochastic Optimization"
    technique := "Adaptive LR GBM"
    description := "Low learning rate + many estimators mirrors adaptive optimization"
    relevance_fn := fun _ => true
    relevance_reason := fun _ => "Universal baseline — adaptive learning rate GBM" },
  { paper_id := "he2016"
    paper_title := "Deep Residual Learning for Image Recognition"
    technique := "Residual Features"
    description := "Pairwise interaction features act as residual connections"
    relevance_fn := fun ctx => decide (ctx.numeric_count ≥ 2)
    relevance_reason := fun ctx => s!"{ctx.numeric_count} numeric columns for interaction features" },
  { paper_id := "goodfellow2014"
    paper_title := "Generative Adversarial Networks"
    technique := "Class Balancing"
    description := "class_weight=balanced augments minority class like GANs generate data"
    relevance_fn := fun ctx =>
      (ctx.problem_type == "classification") && decide (ctx.class_imbalance_ratio > 2)
    relevance_reason := fun ctx => s!"Class imbalance ratio {fmtFix1 ctx.class_imbalance_ratio}:1" },
  { paper_id := "mikolov2013"
    paper_title := "Efficient Estimation of Word Representations in Vector Space"
    technique := "Frequency Encoding"
    description := "Replace categoricals with frequency counts — word2vec for tables"
    relevance_fn := fun ctx => ctx.has_categoricals
    relevance_reason := fun ctx => s!"Has categorical features ({ctx.categorical_count} columns)" },
  { paper_id := "hinton2006"
    paper_title := "Reducing the Dimensionality of Data with Neural Networks"
    technique := "PCA Reduction"
    description := "PCA compresses features like autoencoders learn compressed representations"
    relevance_fn := fun ctx => decide (ctx.numeric_count > 10)
    relevance_reason := fun ctx => s!"Many numeric features ({ctx.numeric_count}) — PCA compression" },
  { paper_id := "vaswani2017"
    paper_title := "Attention Is All You Need"
    technique := "Feature Selection"
    description := "SelectKBest with mutual info focuses on most important features like attention"
    relevance_fn := fun ctx => decide (ctx.num_features > 5)
    relevance_reason := fun ctx => s!"{ctx.num_features} features — select most informative" },
  { paper_id := "kipf2017"
    paper_title := "Semi-Supervised Classification with Graph Convolutional Networks"
    technique := "Pseudo-Labeling"
    description := "Train on labeled data, predict test, retrain on confident pseudo-labels"
    relevance_fn := fun ctx => ctx.problem_type == "classification"
    relevance_reason := fun _ => "Classification task — semi-supervised pseudo-labeling" },
  { paper_id := "zoph2017"
    paper_title := "Neural Architecture Search with Reinforcement Learning"
    technique := "Hyperparameter Search"
    description := "Broad RandomizedSearchCV mimics NAS over hyperparameter space"
    relevance_fn := fun _ => true
    relevance_reason := fun _ => "Universal — automated hyperparameter search" },
  { paper_id := "loshchilov2019"
    paper_title := "Decoupled Weight Decay Regularization (AdamW)"
    technique := "Weight Decay + L1 Selection"
    description := "L1 pre-selection + subsampled GBM mirrors decoupled weight decay"
    relevance_fn := fun ctx => decide (ctx.num_features > 5)
    relevance_reason := fun ctx => s!"{ctx.num_features} features — L1 pre-selection with subsample" },
  { paper_id := "bahdanau2015"
    paper_title := "Neural Machine Translation by Jointly Learning to Align and Translate"
    technique := "Tree-based Selection"
    description := "ExtraTrees feature importance acts as attention over feature space"
    relevance_fn := fun ctx => decide (ctx.num_features > 8)
    relevance_reason := fun ctx => s!"{ctx.num_features} features — tree-based attention selection" },
  { paper_id := "kaplan2020"
    paper_title := "Scaling Laws for Neural Language Models"
    technique := "Ensemble Scaling"
    description := "VotingClassifier/Regressor scales predictions across diverse models"
    relevance_fn := fun _ => true
    relevance_reason := fun _ => "Universal — ensemble of diverse models" },
  { paper_id := "ronneberger2015"
    paper_title := "U-Net: Convolutional Networks for Biomedical Image Segmentation"
    technique := "Bagging Augmentation"
    description := "BaggingClassifier with subsampling augments small datasets like U-Net augmentation"
    relevance_fn := fun ctx => decide (ctx.train_rows < 5000)
    relevance_reason := fun ctx => s!"Small dataset ({ctx.train_rows} rows) — bagging augmentation" },
  { paper_id := "lewis2020"
    paper_title := "Retrieval-Augmented Generation for Knowledge-Intensive NLP Tasks"
    technique := "KNN Features"
    description := "KNN imputation + distance features retrieves info from nearest neighbors"
    relevance_fn := fun ctx => ctx.has_missing
    relevance_reason := fun ctx => s!"Missing values in {ctx.missing_columns.length} columns" }
]

/-- The fixed canonical reference context hard-coded inside
`find_relevant_papers`, used to classify a match as universal. -/
def refContext : DatasetContext :=
  { problem_type := "classification"
    train_rows := 10000
    num_features := 3
    numeric_count := 1
    categorical_count := 0
    numeric_ratio := mkRat 33 100
    has_categoricals := false
    has_missing := false
    missing_columns := []
    class_imbalance_ratio := 1
    target_column := some "y"
    train_file := some "train.csv" }

/-- The match dict built for a relevant entry (reason computed on the context). -/
def mkMatch (ctx : DatasetContext) (e : PaperEntry) : PaperMatch :=
  { paper_id := e.paper_id
    paper_title := e.paper_title
    technique := e.technique
    description := e.description
    reason := e.relevance_reason ctx }

/-- One iteration of the matching loop: a relevant entry is appended to the
universal list when its predicate also holds on `refContext`, else to the
context-specific list. -/
def matchStep (ctx : DatasetContext) (acc : List PaperMatch × List PaperMatch)
    (e : PaperEntry) : List PaperMatch × List PaperMatch :=
  if e.relevance_fn ctx then
    let m := mkMatch ctx e
    if e.relevance_fn refContext then (acc.1, acc.2 ++ [m]) else (acc.1 ++ [m], acc.2)
  else acc

/-- `find_relevant_papers` from `paper_registry.py`: evaluate every registry
predicate in order, partition matches into context-specific and universal, and
return specific-then-universal capped at `max_papers` (default 8). -/
def find_relevant_papers (ctx : DatasetContext) (max_papers : ℕ := 8) : List PaperMatch :=
  let acc := PAPER_REGISTRY.foldl (matchStep ctx) ([], [])
  (acc.1 ++ acc.2).take max_papers

/-- `get_paper_entry` from `paper_registry.py`. -/
def get_paper_entry (pid : String) : Option PaperEntry :=
  PAPER_REGISTRY.find? (fun e => e.paper_id == pid)

-- ─── Dataframes and `basic_preprocess` ─────────────────────────────────────

/-- A pandas cell: a number, a string, or NaN. -/
inductive Cell where
  | num (q : ℚ)
  | str (s : String)
  | null
deriving DecidableEq

/-- A dataframe: an ordered list of named columns. -/
abbrev DF : Type := List (String × List Cell)

/-- Column lookup (`df[col]`); `none` when the column is absent. -/
def dfGet? (df : DF) (c : String) : Option (List Cell) :=
  (List.find? (fun p => p.1 == c) df).map (·.2)

/-- The dataframe's column names, in order. -/
def dfNames (df : DF) : List String :=
  df.map (·.1)

/-- `df.drop(columns=cols, errors='ignore')`. -/
def dropColumns (df : DF) (cols : List String) : DF :=
  df.filter (fun p => !(cols.contains p.1))

/-- `df[cols]`: reindex to the given column list. -/
def dfSelect (df : DF) (cols : List String) : DF :=
  cols.filterMap (fun c => (dfGet? df c).map (fun col => (c, col)))

/-- `find_id_column` from `paper_experiment_runner.py`: first hit in the fixed
preference order. -/
def find_id_column (df : DF) : Option String :=
  List.find? (fun c => (dfNames df).contains c) ["PassengerId", "Id", "id", "ID"]

/-- A column has pandas dtype `object` when it holds at least one string. -/
def isObjectCol (col : List Cell) : Bool :=
  col.any (fun c => match c with | .str _ => true | _ => false)

/-- The column's non-null cells (`dropna`). -/
def nonNullCells (col : List Cell) : List Cell :=
  col.filter (fun c => !(c == Cell.null))

/-- `Series.nunique()`: distinct non-null values. -/
def nuniqueNonNull (col : List Cell) : ℕ :=
  (nonNullCells col).dedup.length

/-- `sorted(set(A) & set(B))` over column names. -/
def commonColumns (a b : DF) : List String :=
  (isortBy strLeB ((dfNames a).filter (fun n => (dfNames b).contains n))).dedup

/-- The high-cardinality string columns dropped before encoding:
object dtype and more than 50 distinct values. -/
def highCardCols (df : DF) : List String :=
  (df.filter (fun p => isObjectCol p.2 && decide (50 < nuniqueNonNull p.2))).map (·.1)

/-- `Series.median()` over the non-null numeric cells (pandas: mean of the two
middle values for an even count; NaN, here `none`, when no values). -/
def medianQ (col : List Cell) : Option ℚ :=
  let vals := isortBy (fun a b => decide (a ≤ b)) (col.filterMap (fun c => match c with | .num q => some q | _ => none))
  match vals.length with
  | 0 => none
  | Nat.succ _ =>
    if vals.length % 2 = 1 then vals[vals.length / 2]?
    else do
      let a ← vals[vals.length / 2 - 1]?
      let b ← vals[vals.length / 2]?
      pure ((a + b) / 2)

/-- `fillna(m)` for a numeric fill value: replace NaN cells, leave the rest. -/
def fillNullWith (m : ℚ) (c : Cell) : Cell :=
  match c with
  | .null => .num m
  | c => c

/-- `fillna('_missing_')` before label encoding. -/
def fillMissingTag (c : Cell) : Cell :=
  match c with
  | .null => .str "_missing_"
  | c => c

/-- Frequency encoding (`value_counts(normalize=True)` on the train column,
then `map(freq).fillna(0.0)`): a value seen in the train column maps to its
empirical frequency, anything else (unseen or NaN) to 0. -/
def freqEncode (vals : List Cell) (c : Cell) : Cell :=
  if c ≠ Cell.null ∧ vals.contains c then .num (mkRat (vals.count c) vals.length)
  else .num 0

/-- The string contents of a cell list, provided every cell is a string
(`none` otherwise).  `LabelEncoder.fit` on a mixed string/number pool raises
in Python; that is the `none` case. -/
def allStrs? : List Cell → Option (List String)
  | [] => some []
  | .str s :: rest => (allStrs? rest).map (fun l => s :: l)
  | _ => none

/-- `LabelEncoder` classes: the sorted distinct values of the fit pool. -/
def labelClasses (pool : List String) : List String :=
  (isortBy strLeB pool).dedup

/-- `LabelEncoder.transform` of one (already `_missing_`-filled) cell. -/
def labelEncode (classes : List String) (c : Cell) : Cell :=
  match c with
  | .str s => .num (classes.indexOf s : ℕ)
  | c => c

/-- Encode one column pair, following the per-column branch of
`basic_preprocess`: the branch is chosen by the TRAIN column's dtype; `none`
models the `LabelEncoder.fit` TypeError on a mixed value pool. -/
def encodeOne (frequency_encode : Bool) (tr te : List Cell) : Option (List Cell × List Cell) :=
  if isObjectCol tr then
    if frequency_encode then
      let vals := nonNullCells tr
      some (tr.map (freqEncode vals), te.map (freqEncode vals))
    else
      let trF := tr.map fillMissingTag
      let teF := te.map fillMissingTag
      match allStrs? (trF ++ teF) with
      | none => none
      | some pool =>
        let classes := labelClasses pool
        some (trF.map (labelEncode classes), teF.map (labelEncode classes))
  else
    match medianQ tr with
    | some m => some (tr.map (fillNullWith m), te.map (fillNullWith m))
    | none => some (tr, te)

/-- The encoding loop over the aligned column lists of the two frames (the
frames hold the same names in the same order when this is reached). -/
def encodeFrames (frequency_encode : Bool) : DF → DF → Option (DF × DF)
  | [], [] => some ([], [])
  | (c, tr) :: restT, (c2, te) :: restE =>
    match encodeOne frequency_encode tr te with
    | none => none
    | some (tr', te') =>
      (encodeFrames frequency_encode restT restE).map
        (fun p => ((c, tr') :: p.1, (c2, te') :: p.2))
  | _, _ => none

/-- The train-side feature frame: the train table with the target column and
(when one exists in the test table) the identifier column dropped. -/
def featureFrameTrain (train_df test_df : DF) (target_col : String) : DF :=
  let X_train0 := dropColumns train_df [target_col]
  match find_id_column test_df with
  | some c => dropColumns X_train0 [c]
  | none => X_train0

/-- The test-side feature frame: the test table with its identifier column
dropped when one exists. -/
def featureFrameTest (test_df : DF) : DF :=
  match find_id_column test_df with
  | some c => dropColumns test_df [c]
  | none => test_df

/-- `basic_preprocess` from `paper_experiment_runner.py`: drop target and id,
reindex both frames to the sorted common columns, drop high-cardinality string
columns, then encode.  Returns `(X_train, y_train, X_test, test_ids, id_col)`;
`none` models an uncaught exception (absent target, or a mixed label pool). -/
def basic_preprocess (train_df test_df : DF) (target_col : String)
    (frequency_encode : Bool := false) :
    Option (DF × List Cell × DF × Option (List Cell) × Option String) :=
  match dfGet? train_df target_col with
  | none => none
  | some y_train =>
    let id_col := find_id_column test_df
    let test_ids := id_col.bind (fun c => dfGet? test_df c)
    let X_train1 := featureFrameTrain train_df test_df target_col
    let X_test1 := featureFrameTest test_df
    let common := commonColumns X_train1 X_test1
    let X_train2 := dfSelect X_train1 common
    let X_test2 := dfSelect X_test1 common
    let dropc := highCardCols X_train2
    match encodeFrames frequency_encode (dropColumns X_train2 dropc) (dropColumns X_test2 dropc) with
    | none => none
    | some (xt, xe) => some (xt, y_train, xe, test_ids, id_col)

-- ─── Experiment runner (`paper_experiment_runner.py` main loop) ────────────

/-- One completed experiment record (`results` entry in `main`). -/
structure Outcome where
   id : ℕ
   paper_id : String
   technique : String
   cv_score : ℚ
   std : ℚ
   predictions : List ℚ
   is_winner : Bool
deriving DecidableEq

/-- What the execution phase of one strategy (the body of the `try:` block:
cross-validation, fitting, prediction, including the special handlers) hands
back on success. -/
structure StratResult where
   mean_score : ℚ
   std_score : ℚ
   predictions : List ℚ
   extra_info : String
deriving DecidableEq

/-- The structured events of the experiment loop that the claims talk about. -/
inductive RunEvent where
  | experimentStart (id : ℕ) (paper_id : String)
  | logNote (id : ℕ) (message : String)
  | experimentResult (id : ℕ) (paper_id : String) (cv_score : ℚ)
  | experimentError (id : ℕ) (paper_id : String) (message : String)
deriving DecidableEq

/-- The experiment loop of `main`.  Per match (1-based index `idx`):
look the entry up in the registry (skip if absent), run the pre-`try:` work
(preprocessing and `build_experiment_pipeline`, the `build` oracle) — a
failure there is NOT caught and kills the loop (third component `some msg`) —
then emit `experiment_start` and run the execution phase (the `exec` oracle)
inside the exception handler: a failure there emits `experiment_error` and the
loop continues.  Returns (events, results, uncaught error). -/
def runExperimentLoop (build : String → Except String Unit)
    (exec : ℕ → String → Except String StratResult) :
    ℕ → List PaperMatch → List RunEvent × List Outcome × Option String
  | _, [] => ([], [], none)
  | idx, m :: rest =>
    match get_paper_entry m.paper_id with
    | none => runExperimentLoop build exec (idx + 1) rest
    | some _ =>
      match build m.paper_id with
      | .error e => ([], [], some e)
      | .ok _ =>
        match exec idx m.paper_id with
        | .error e =>
          let p := runExperimentLoop build exec (idx + 1) rest
          (RunEvent.experimentStart idx m.paper_id ::
             RunEvent.experimentError idx m.paper_id e :: p.1, p.2.1, p.2.2)
        | .ok r =>
          let p := runExperimentLoop build exec (idx + 1) rest
          (RunEvent.experimentStart idx m.paper_id ::
             (if r.extra_info ≠ "" then [RunEvent.logNote idx r.extra_info] else []) ++
             RunEvent.experimentResult idx m.paper_id (roundTo4 r.mean_score) :: p.1,
           { id := idx, paper_id := m.paper_id, technique := m.technique,
             cv_score := r.mean_score, std := r.std_score,
             predictions := r.predictions, is_winner := false } :: p.2.1,
           p.2.2)

/-- Outcome of the run's experiments phase at top level. -/
inductive PhaseStatus where
  | crashed (message : String)
  | failedNoExperiments
  | completed
deriving DecidableEq

/-- The top-level status of the experiments phase: an uncaught exception
propagates; otherwise the run fails iff `results` stayed empty
(`if not results: ... sys.exit(1)`). -/
def experimentsPhaseStatus (build : String → Except String Unit)
    (exec : ℕ → String → Except String StratResult)
    (matched : List PaperMatch) : PhaseStatus :=
  let p := runExperimentLoop build exec 1 matched
  match p.2.2 with
  | some e => .crashed e
  | none => if p.2.1.isEmpty then .failedNoExperiments else .completed

-- ─── Winner selection ──────────────────────────────────────────────────────

/-- `sorted(results, key=lambda r: r['cv_score'], reverse=True)`: stable
descending sort by mean cross-validation score. -/
def sortByScoreDesc (results : List Outcome) : List Outcome :=
  isortBy (fun a b => decide (b.cv_score ≤ a.cv_score)) results

/-- The winner selection of `main`: take the head of the stable descending
sort and flip its `is_winner` flag (the record is mutated in place in Python;
records are identified by their unique 1-based `id`). -/
def select_winner (results : List Outcome) : List Outcome :=
  match sortByScoreDesc results with
  | [] => results
  | w :: _ => results.map (fun r => if r.id = w.id then { r with is_winner := true } else r)

-- ─── Pseudo-labeling handler (`run_pseudo_label_experiment`) ───────────────

/-- numpy `row.max()` for a non-empty row of class probabilities. -/
def rowMaxD : List ℚ → ℚ
  | [] => 0
  | x :: xs => xs.foldl max x

/-- numpy boolean-mask selection `xs[mask]`. -/
def maskFilter {α : Type} (mask : List Bool) (xs : List α) : List α :=
  (mask.zip xs).filterMap (fun p => if p.1 then some p.2 else none)

/-- `run_pseudo_label_experiment` from `paper_experiment_runner.py`.  The
fitted pipeline's behaviour is three oracles: `cross_val n scoring X y` models
`cross_val_score(pipeline, X, y, cv=n, scoring=scoring)`; `fit_predict X y T`
models fitting on `(X, y)` then predicting `T`; `fit_proba?` is `none` when
the pipeline lacks `predict_proba`, else models fitting then `predict_proba`.
Returns `(cv_scores, predictions, note)`. -/
def run_pseudo_label_experiment
    (cross_val : ℕ → String → List (List Cell) → List ℚ → List ℚ)
    (fit_predict : List (List Cell) → List ℚ → List (List Cell) → List ℚ)
    (fit_proba? : Option (List (List Cell) → List ℚ → List (List Cell) → List (List ℚ)))
    (X_train : List (List Cell)) (y_train : List ℚ) (X_test : List (List Cell))
    (problem_type scoring : String) : List ℚ × List ℚ × String :=
  let fallback : List ℚ × List ℚ × String :=
    (cross_val 5 scoring X_train y_train,
     fit_predict X_train y_train X_test,
     "Standard training (pseudo-labeling not confident enough)")
  match fit_proba? with
  | none => fallback
  | some fit_proba =>
    let test_proba := fit_proba X_train y_train X_test
    let max_proba := test_proba.map rowMaxD
    let confident_mask := max_proba.map (fun p => decide (p > mkRat 9 10))
    let n_confident := confident_mask.count true
    if 10 < n_confident then
      let pseudo_labels := fit_predict X_train y_train X_test
      let X_pseudo := maskFilter confident_mask X_test
      let y_pseudo := maskFilter confident_mask pseudo_labels
      let X_combined := X_train ++ X_pseudo
      let y_combined := y_train ++ y_pseudo
      (cross_val 5 scoring X_combined y_combined,
       fit_predict X_combined y_combined X_test,
       s!"Pseudo-labeled {n_confident} samples")
    else fallback

-- ─── Knowledge graph (`build_knowledge_graph`) ─────────────────────────────

/-- A knowledge-graph node; only `result` nodes carry a `status` field. -/
inductive KGNode where
  | paper (id : String) (label : String) (paper_id : String)
  | tech (id : String) (label : String)
  | result (id : String) (cv_score : ℚ) (status : String) (is_winner : Bool) (label : String)
deriving DecidableEq

/-- The node's unique identifier. -/
def KGNode.nodeId : KGNode → String
  | .paper i _ _ => i
  | .tech i _ => i
  | .result i _ _ _ _ => i

/-- Python `node.get('status')`: `none` for paper and technique nodes. -/
def KGNode.statusOf : KGNode → Option String
  | .result _ _ s _ _ => some s
  | _ => none

/-- A directed knowledge-graph edge. -/
structure KGEdge where
  source : String
  target : String
  typ : String
deriving DecidableEq

/-- The knowledge-graph document. -/
structure KnowledgeGraph where
  competition : String
  nodes : List KGNode
  edges : List KGEdge
  baseline_score : ℚ
  best_score : ℚ
  proven : ℕ
  unproven : ℕ
deriving DecidableEq

/-- `build_knowledge_graph` from `paper_experiment_runner.py`: a paper and a
technique node (joined by `inspires`) per match, a result node (fed by
`produces`) per completed outcome, and the proven/unproven tallies over all
nodes' `status` fields. -/
def build_knowledge_graph (competition : String) (matched : List PaperMatch)
    (results : List Outcome) (baseline_score best_score : ℚ) : KnowledgeGraph :=
  let paperNodes := matched.flatMap (fun m =>
    [KGNode.paper ("paper:" ++ m.paper_id) (m.paper_title.take 40 ++ "...") m.paper_id,
     KGNode.tech ("tech:" ++ m.paper_id) m.technique])
  let inspireEdges := matched.map (fun m =>
    KGEdge.mk ("paper:" ++ m.paper_id) ("tech:" ++ m.paper_id) "inspires")
  let resultNodes := results.map (fun r =>
    KGNode.result ("result:" ++ toString r.id) r.cv_score
      (if r.is_winner then "winner"
       else if r.cv_score > baseline_score then "proven" else "unproven")
      r.is_winner ("CV=" ++ fmtFix4 r.cv_score))
  let produceEdges := results.map (fun r =>
    KGEdge.mk ("tech:" ++ r.paper_id) ("result:" ++ toString r.id) "produces")
  let nodes := paperNodes ++ resultNodes
  let edges := inspireEdges ++ produceEdges
  { competition := competition
    nodes := nodes
    edges := edges
    baseline_score := roundTo4 baseline_score
    best_score := roundTo4 best_score
    proven := nodes.countP (fun n => n.statusOf == some "proven" || n.statusOf == some "winner")
    unproven := nodes.countP (fun n => n.statusOf == some "unproven") }

-- ─── Submission writer ─────────────────────────────────────────────────────

/-- numpy `astype(int)`: truncation toward zero. -/
def truncToInt (q : ℚ) : ℤ :=
  if 0 ≤ q then ⌊q⌋ else -⌊-q⌋

/-- The submission table: identifier column then target column. -/
structure Submission where
  id_header : String
  target_header : String
  ids : List Cell
  target_vals : List ℚ
deriving DecidableEq

/-- The submission step of `main`: coerce classification predictions to
integers, re-derive the identifier column from a fresh `basic_preprocess`
pass, and assemble the two-column table (a synthesized 0-based `range` index
when no identifier column exists).  `none` models the fresh preprocessing
pass raising. -/
def make_submission (train_df test_df : DF) (target_col problem_type : String)
    (preds : List ℚ) : Option Submission :=
  let preds' := if problem_type == "classification"
    then preds.map (fun q => ((truncToInt q : ℤ) : ℚ)) else preds
  match basic_preprocess train_df test_df target_col with
  | none => none
  | some (_, _, _, test_ids, id_col) =>
    match test_ids, id_col with
    | some ids, some c => some ⟨c, target_col, ids, preds'⟩
    | _, _ =>
      some ⟨"Id", target_col, (List.range preds'.length).map (fun (i : ℕ) => Cell.num (i : ℚ)), preds'⟩

-- ─── Concrete instances used to exercise the theorems ──────────────────────

/-- The scenario context of the spec: 50000 rows, 3 features, all numeric,
no missing values, balanced classes (a classification target). -/
def ctx50k : DatasetContext :=
  { problem_type := "classification"
    train_rows := 50000
    num_features := 3
    numeric_count := 3
    categorical_count := 0
    numeric_ratio := 1
    has_categoricals := false
    has_missing := false
    missing_columns := []
    class_imbalance_ratio := 1
    target_column := some "target"
    train_file := some "train.csv" }

/-- An analysis document whose class-balance block holds fractional shares
(floats are accepted by the code's `isinstance(counts[0], (int, float))`
check) instead of value counts. -/
def fractionalAnalysis : Analysis :=
  { train_file := some "train.csv"
    target_column := some "t"
    class_balance := [("a", mkRat 1 2), ("b", mkRat 1 4)]
    files := [("train.csv",
      { rows := 100
        columns_info := [("t", ⟨"int64", 0, 2, "categorical"⟩),
                         ("x", ⟨"float64", 0, 50, "continuous"⟩)] })] }

/-- An ordinary analysis document: class balance holds value counts (≥ 1). -/
def countAnalysis : Analysis :=
  { train_file := some "train.csv"
    target_column := some "t"
    class_balance := [("a", 3), ("b", 2)]
    files := [("train.csv",
      { rows := 5
        columns_info := [("t", ⟨"int64", 0, 2, "categorical"⟩),
                         ("x", ⟨"float64", 0, 5, "continuous"⟩),
                         ("c", ⟨"object", 10, 3, "categorical"⟩)] })] }

/-- Two registry-backed matches, as the matcher would hand to the loop. -/
def twoMatches : List PaperMatch :=
  [{ paper_id := "kingma2015", paper_title := "Adam: A Method for Stochastic Optimization",
     technique := "Adaptive LR GBM",
     description := "Low learning rate + many estimators mirrors adaptive optimization",
     reason := "Universal baseline — adaptive learning rate GBM" },
   { paper_id := "zoph2017", paper_title := "Neural Architecture Search with Reinforcement Learning",
     technique := "Hyperparameter Search",
     description := "Broad RandomizedSearchCV mimics NAS over hyperparameter space",
     reason := "Universal — automated hyperparameter search" }]

/-- A pipeline-construction oracle that raises on the first of `twoMatches`. -/
def failingBuild : String → Except String Unit :=
  fun pid => if pid == "kingma2015" then .error "construction boom" else .ok ()

/-- A construction oracle that always succeeds. -/
def okBuild : String → Except String Unit := fun _ => .ok ()

/-- An execution oracle that raises on the first strategy and succeeds on the
second. -/
def mixedExec : ℕ → String → Except String StratResult :=
  fun _ pid =>
    if pid == "kingma2015" then .error "fit exploded"
    else .ok ⟨mkRat 4 5, 0, [1, 0], ""⟩

/-- An execution oracle that always succeeds. -/
def okExec : ℕ → String → Except String StratResult :=
  fun _ _ => .ok ⟨mkRat 4 5, 0, [1, 0], ""⟩

/-- Three completed outcomes with a tie at the top score. -/
def threeOutcomes : List Outcome :=
  [⟨1, "kingma2015", "Adaptive LR GBM", mkRat 4 5, 0, [1], false⟩,
   ⟨2, "zoph2017", "Hyperparameter Search", mkRat 4 5, 0, [1], false⟩,
   ⟨3, "kaplan2020", "Ensemble Scaling", mkRat 3 5, 0, [0], false⟩]

/-- A cross-validation oracle returning a fold score per requested fold. -/
def toyCrossVal : ℕ → String → List (List Cell) → List ℚ → List ℚ :=
  fun folds _ X _ => List.replicate folds (mkRat X.length 100)

/-- A fit-and-predict oracle returning one label per test row. -/
def toyFitPredict : List (List Cell) → List ℚ → List (List Cell) → List ℚ :=
  fun X _ T => T.map (fun _ => (X.length : ℚ))

/-- A probability oracle fully confident on every test row. -/
def toyFitProba : List (List Cell) → List ℚ → List (List Cell) → List (List ℚ) :=
  fun _ _ T => T.map (fun _ => [1, 0])

/-- Twelve one-cell test rows (more than 10, to trigger pseudo-labeling). -/
def twelveRows : List (List Cell) :=
  (List.range 12).map (fun i => [Cell.num i])

/-- A train table whose feature column is numeric. -/
def numTrainDF : DF :=
  [("a", [Cell.num 1]), ("t", [Cell.num 0])]

/-- A test table whose same-named column holds a string. -/
def strTestDF : DF :=
  [("a", [Cell.str "x"])]

/-- A train table with an identifier, a categorical feature, and a target. -/
def witTrainDF : DF :=
  [("Id", [Cell.num 10, Cell.num 11]),
   ("c", [Cell.str "u", Cell.str "v"]),
   ("t", [Cell.num 0, Cell.num 1])]

/-- The matching test table. -/
def witTestDF : DF :=
  [("Id", [Cell.num 20, Cell.num 21]),
   ("c", [Cell.str "u", Cell.str "u"])]

/-- One result for each of `twoMatches`, for graph building. -/
def twoResults : List Outcome :=
  [⟨1, "kingma2015", "Adaptive LR GBM", mkRat 4 5, 0, [1], true⟩,
   ⟨2, "zoph2017", "Hyperparameter Search", mkRat 3 5, 0, [0], false⟩]

/-- The column list `basic_preprocess` settles on, stated from the same
stages: the sorted common columns of the two frames after dropping the target
and identifier columns, minus the dropped high-cardinality string columns. -/
def preprocessPlannedColumns (train_df test_df : DF) (target_col : String) : List String :=
  let X_train1 := featureFrameTrain train_df test_df target_col
  let common := commonColumns X_train1 (featureFrameTest test_df)
  common.filter (fun c => !(highCardCols (dfSelect X_train1 common)).contains c)

-- ─── Theorems ──────────────────────────────────────────────────────────────

theorem matchLoop_eq (ctx : DatasetContext) (entries : List PaperEntry) :
    ∀ s u : List PaperMatch,
      entries.foldl (matchStep ctx) (s, u) =
        (s ++ (entries.filter (fun e => e.relevance_fn ctx && !e.relevance_fn refContext)).map (mkMatch ctx),
         u ++ (entries.filter (fun e => e.relevance_fn ctx && e.relevance_fn refContext)).map (mkMatch ctx)) := by
  induction entries with
  | nil => intro s u; simp
  | cons e es ih =>
    intro s u
    by_cases h1 : e.relevance_fn ctx = true
    · by_cases h2 : e.relevance_fn refContext = true
      · simp [matchStep, h1, h2, ih, List.filter_cons]
      · simp [matchStep, h1, h2, ih, List.filter_cons]
    · simp [matchStep, h1, List.filter_cons]
      exact ih s u

/-- C1: for every context and cap, the Relevance Matcher returns exactly the
context-specific matches (predicate true on the context, false on the
canonical reference context) in registry order, followed by the universal
matches (predicate also true on the reference) in registry order, truncated
to the first `max_papers` entries; the result never exceeds `max_papers`. -/
theorem find_relevant_papers_ordering_cap (ctx : DatasetContext) (max_papers : ℕ) :
    find_relevant_papers ctx max_papers =
      (((PAPER_REGISTRY.filter (fun e => e.relevance_fn ctx && !e.relevance_fn refContext)).map (mkMatch ctx)) ++
       ((PAPER_REGISTRY.filter (fun e => e.relevance_fn ctx && e.relevance_fn refContext)).map (mkMatch ctx))).take max_papers ∧
    (find_relevant_papers ctx max_papers).length ≤ max_papers := by
  constructor
  · unfold find_relevant_papers
    rw [matchLoop_eq]
    simp
  · unfold find_relevant_papers
    simp [List.length_take]

/-- C5 counterexample: on the 50000-row, 3-numeric-feature, no-missing,
balanced classification context the matcher does NOT return exactly the three
claimed universal matches: the numeric-ratio, numeric-count and
pseudo-labeling predicates also fire. -/
theorem scenario_50k_counterexample :
    (find_relevant_papers ctx50k 8).map (fun m => m.technique) ≠
      ["Adaptive LR GBM", "Hyperparameter Search", "Ensemble Scaling"] ∧
    (find_relevant_papers ctx50k 8).map (fun m => m.technique) =
      ["Aggressive Scaling", "Residual Features", "Adaptive LR GBM", "Pseudo-Labeling",
       "Hyperparameter Search", "Ensemble Scaling"] := by
  decide

/-- C5 amended: on that context the matcher returns exactly six matches —
Aggressive Scaling and Residual Features as context-specific (numeric ratio
1.0 > 0.5; numeric count 3 ≥ 2), then the universal Adaptive LR GBM,
Pseudo-Labeling, Hyperparameter Search and Ensemble Scaling, in registry
order. -/
theorem scenario_50k_matches :
    (find_relevant_papers ctx50k 8).map (fun m => (m.paper_id, m.technique)) =
      [("ioffe2015", "Aggressive Scaling"), ("he2016", "Residual Features"),
       ("kingma2015", "Adaptive LR GBM"), ("kipf2017", "Pseudo-Labeling"),
       ("zoph2017", "Hyperparameter Search"), ("kaplan2020", "Ensemble Scaling")] := by
  decide

theorem foldl_max_ge_init (l : List ℚ) : ∀ a : ℚ, a ≤ l.foldl max a := by
  induction l with
  | nil => intro a; simp
  | cons x xs ih =>
    intro a
    calc a ≤ max a x := le_max_left a x
    _ ≤ (xs).foldl max (max a x) := ih (max a x)

theorem foldl_min_le_init (l : List ℚ) : ∀ a : ℚ, l.foldl min a ≤ a := by
  induction l with
  | nil => intro a; simp
  | cons x xs ih =>
    intro a
    calc (xs).foldl min (min a x) ≤ min a x := ih (min a x)
    _ ≤ a := min_le_left a x

theorem foldl_min_ge (c : ℚ) (l : List ℚ) :
    ∀ a : ℚ, c ≤ a → (∀ x ∈ l, c ≤ x) → c ≤ l.foldl min a := by
  induction l with
  | nil => intro a ha _; simpa using ha
  | cons x xs ih =>
    intro a ha hl
    exact ih (min a x) (le_min ha (hl x (by simp))) (fun y hy => hl y (by simp [hy]))

theorem listMinD_ge (c : ℚ) (l : List ℚ) (hne : l ≠ []) (h : ∀ x ∈ l, c ≤ x) :
    c ≤ listMinD l := by
  match l, hne with
  | x :: xs, _ =>
    exact foldl_min_ge c xs x (h x (by simp)) (fun y hy => h y (by simp [hy]))

theorem listMinD_le_listMaxD (l : List ℚ) (hne : l ≠ []) : listMinD l ≤ listMaxD l := by
  match l, hne with
  | x :: xs, _ =>
    calc listMinD (x :: xs) = xs.foldl min x := rfl
    _ ≤ x := foldl_min_le_init xs x
    _ ≤ xs.foldl max x := foldl_max_ge_init xs x

/-- C4 counterexample: on an analysis document whose class-balance block holds
fractional shares (the code's `isinstance(counts[0], (int, float))` admits
floats), the built context's class-imbalance ratio drops below 1. -/
theorem imbalance_fails_on_fractional_counts :
    (build_dataset_context fractionalAnalysis).class_imbalance_ratio = mkRat 1 2 ∧
    ¬ ((1 : ℚ) ≤ (build_dataset_context fractionalAnalysis).class_imbalance_ratio) := by
  have h : (build_dataset_context fractionalAnalysis).class_imbalance_ratio = mkRat 1 2 := by
    simp only [build_dataset_context, fractionalAnalysis, alistGet?, listMaxD, listMinD]
    norm_num [max_def, min_def, List.cons_ne_nil]
  refine ⟨h, ?_⟩
  rw [h]
  norm_num

/-- C4 amended: for every analysis document the built context satisfies
`numeric_ratio ∈ [0, 1]`; and provided every class-balance count is at least 1
(as holds for the analyzer's value counts), `class_imbalance_ratio ≥ 1`. -/
theorem dataset_context_invariants (analysis : Analysis)
    (hcb : ∀ p ∈ analysis.class_balance, (1 : ℚ) ≤ p.2) :
    0 ≤ (build_dataset_context analysis).numeric_ratio ∧
    (build_dataset_context analysis).numeric_ratio ≤ 1 ∧
    1 ≤ (build_dataset_context analysis).class_imbalance_ratio := by
  refine ⟨?_, ?_, ?_⟩
  · simp only [build_dataset_context]
    positivity
  · simp only [build_dataset_context]
    refine div_le_one_of_le₀ ?_ (by positivity)
    exact_mod_cast le_trans (List.countP_le_length _) (le_max_left _ 1)
  · simp only [build_dataset_context]
    by_cases hc : analysis.class_balance ≠ [] ∧ 2 ≤ analysis.class_balance.length
    · rw [if_pos hc]
      set counts := analysis.class_balance.map (·.2) with hcounts
      have hne : counts ≠ [] := by
        simpa [hcounts] using hc.1
      have hall : ∀ x ∈ counts, (1 : ℚ) ≤ x := by
        intro x hx
        rcases List.mem_map.mp hx with ⟨p, hp, rfl⟩
        exact hcb p hp
      have hmin : (1 : ℚ) ≤ listMinD counts := listMinD_ge 1 counts hne hall
      rw [max_eq_left hmin, one_le_div (lt_of_lt_of_le zero_lt_one hmin)]
      exact listMinD_le_listMaxD counts hne
    · rw [if_neg hc]

/-- C4 witness: the invariants instantiated on a value-count analysis document. -/
theorem dataset_context_invariants_witness :
    (∀ p ∈ countAnalysis.class_balance, (1 : ℚ) ≤ p.2) ∧
    (0 ≤ (build_dataset_context countAnalysis).numeric_ratio ∧
     (build_dataset_context countAnalysis).numeric_ratio ≤ 1 ∧
     1 ≤ (build_dataset_context countAnalysis).class_imbalance_ratio) :=
  ⟨by decide, dataset_context_invariants countAnalysis (by decide)⟩

theorem insertBy_length {α : Type} (le : α → α → Bool) (a : α) (l : List α) :
    (insertBy le a l).length = l.length + 1 := by
  induction l with
  | nil => rfl
  | cons x xs ih =>
    by_cases h : le a x = true
    · simp [insertBy, h]
    · simp [insertBy, h, ih]

theorem isortBy_length {α : Type} (le : α → α → Bool) (l : List α) :
    (isortBy le l).length = l.length := by
  induction l with
  | nil => rfl
  | cons x xs ih => simp [isortBy, insertBy_length, ih]

theorem insertBy_mem {α : Type} (le : α → α → Bool) (a : α) (l : List α) (y : α) :
    y ∈ insertBy le a l ↔ y = a ∨ y ∈ l := by
  induction l with
  | nil => simp [insertBy]
  | cons x xs ih =>
    by_cases h : le a x = true
    · simp [insertBy, h]
    · simp [insertBy, h, ih]
      tauto

theorem isortBy_mem {α : Type} (le : α → α → Bool) (l : List α) (y : α) :
    y ∈ isortBy le l ↔ y ∈ l := by
  induction l with
  | nil => simp [isortBy]
  | cons x xs ih => simp [isortBy, insertBy_mem, ih]

theorem sortDesc_head_max (l : List Outcome) :
    ∀ w rest, sortByScoreDesc l = w :: rest → ∀ x ∈ l, x.cv_score ≤ w.cv_score := by
  induction l with
  | nil => intro w rest h; exact absurd h (by simp [sortByScoreDesc, isortBy])
  | cons a t ih =>
    intro w rest h
    rcases ht : sortByScoreDesc t with _ | ⟨h0, r0⟩
    · have hte : t = [] := by
        have := isortBy_length (fun a b => decide (b.cv_score ≤ a.cv_score)) t
        rw [show isortBy (fun a b => decide (b.cv_score ≤ a.cv_score)) t = sortByScoreDesc t from rfl, ht] at this
        exact List.length_eq_zero.mp this.symm
      subst hte
      have hw : w = a := by
        have : sortByScoreDesc [a] = [a] := rfl
        rw [this] at h
        exact (List.cons_eq_cons.mp h).1.symm
      subst hw
      intro x hx
      simp at hx
      simp [hx]
    · have hstep : sortByScoreDesc (a :: t) = insertBy (fun a b => decide (b.cv_score ≤ a.cv_score)) a (sortByScoreDesc t) := rfl
      rw [hstep, ht] at h
      by_cases hc : h0.cv_score ≤ a.cv_score
      · rw [show insertBy (fun a b => decide (b.cv_score ≤ a.cv_score)) a (h0 :: r0) = a :: h0 :: r0 by simp [insertBy, hc]] at h
        obtain ⟨hw, -⟩ := List.cons_eq_cons.mp h
        subst hw
        intro x hx
        rcases List.mem_cons.mp hx with hx | hx
        · simp [hx]
        · exact le_trans (ih h0 r0 ht x hx) hc
      · rw [show insertBy (fun a b => decide (b.cv_score ≤ a.cv_score)) a (h0 :: r0) = h0 :: insertBy (fun a b => decide (b.cv_score ≤ a.cv_score)) a r0 by simp [insertBy, hc]] at h
        obtain ⟨hw, -⟩ := List.cons_eq_cons.mp h
        subst hw
        intro x hx
        rcases List.mem_cons.mp hx with hx | hx
        · subst hx
          exact le_of_lt (lt_of_not_le hc)
        · exact ih _ r0 ht x hx

theorem sortDesc_head_mem (l : List Outcome) :
    ∀ w rest, sortByScoreDesc l = w :: rest → w ∈ l := by
  intro w rest h
  have : w ∈ sortByScoreDesc l := by
    rw [h]; simp
  rw [show sortByScoreDesc l = isortBy (fun a b => decide (b.cv_score ≤ a.cv_score)) l from rfl] at this
  exact (isortBy_mem _ l w).mp this

theorem sortDesc_head_first (l : List Outcome) :
    l.Pairwise (fun a b => a.id < b.id) →
    ∀ w rest, sortByScoreDesc l = w :: rest →
    ∀ x ∈ l, x.cv_score = w.cv_score → w.id ≤ x.id := by
  induction l with
  | nil => intro _ w rest h; exact absurd h (by simp [sortByScoreDesc, isortBy])
  | cons a t ih =>
    intro hp w rest h
    have ha := (List.pairwise_cons.mp hp).1
    have hpt := (List.pairwise_cons.mp hp).2
    rcases ht : sortByScoreDesc t with _ | ⟨h0, r0⟩
    · have hte : t = [] := by
        have := isortBy_length (fun a b => decide (b.cv_score ≤ a.cv_score)) t
        rw [show isortBy (fun a b => decide (b.cv_score ≤ a.cv_score)) t = sortByScoreDesc t from rfl, ht] at this
        exact List.length_eq_zero.mp this.symm
      subst hte
      have hw : w = a := by
        have : sortByScoreDesc [a] = [a] := rfl
        rw [this] at h
        exact (List.cons_eq_cons.mp h).1.symm
      subst hw
      intro x hx
      simp at hx
      simp [hx]
    · have hstep : sortByScoreDesc (a :: t) = insertBy (fun a b => decide (b.cv_score ≤ a.cv_score)) a (sortByScoreDesc t) := rfl
      rw [hstep, ht] at h
      by_cases hc : h0.cv_score ≤ a.cv_score
      · rw [show insertBy (fun a b => decide (b.cv_score ≤ a.cv_score)) a (h0 :: r0) = a :: h0 :: r0 by simp [insertBy, hc]] at h
        obtain ⟨hw, -⟩ := List.cons_eq_cons.mp h
        subst hw
        intro x hx _
        rcases List.mem_cons.mp hx with hx | hx
        · simp [hx]
        · exact le_of_lt (ha x hx)
      · rw [show insertBy (fun a b => decide (b.cv_score ≤ a.cv_score)) a (h0 :: r0) = h0 :: insertBy (fun a b => decide (b.cv_score ≤ a.cv_score)) a r0 by simp [insertBy, hc]] at h
        obtain ⟨hw, -⟩ := List.cons_eq_cons.mp h
        subst hw
        intro x hx hsc
        rcases List.mem_cons.mp hx with hx | hx
        · subst hx
          exact absurd (hsc ▸ le_refl x.cv_score) hc
        · exact ih hpt _ r0 ht x hx hsc

theorem filter_unmarked_nil (w : Outcome) (t : List Outcome)
    (h : ∀ x ∈ t, x.id ≠ w.id ∧ x.is_winner = false) :
    (t.map (fun r => if r.id = w.id then { r with is_winner := true } else r)).filter
      (fun o => o.is_winner) = [] := by
  induction t with
  | nil => rfl
  | cons x xs ih =>
    have hx := h x (by simp)
    simp only [List.map_cons, List.filter_cons, if_neg hx.1]
    rw [if_neg (by simp [hx.2])]
    exact ih (fun y hy => h y (by simp [hy]))

theorem filter_winner_map (w : Outcome) (l : List Outcome)
    (hp : l.Pairwise (fun a b => a.id < b.id)) (hw : w ∈ l)
    (hflags : ∀ o ∈ l, o.is_winner = false) :
    (l.map (fun r => if r.id = w.id then { r with is_winner := true } else r)).filter
      (fun o => o.is_winner) = [{ w with is_winner := true }] := by
  induction l with
  | nil => exact absurd hw (by simp)
  | cons a t ih =>
    have ha := (List.pairwise_cons.mp hp).1
    have hpt := (List.pairwise_cons.mp hp).2
    by_cases hid : a.id = w.id
    · have hwa : w = a := by
        rcases List.mem_cons.mp hw with h | h
        · exact h
        · exact absurd hid (ne_of_lt (ha w h))
      subst hwa
      have htail := filter_unmarked_nil w t
        (fun x hx => ⟨ne_of_gt (hid ▸ ha x hx), hflags x (by simp [hx])⟩)
      simp only [List.map_cons, List.filter_cons, if_pos hid]
      simp [htail]
    · have hwt : w ∈ t := by
        rcases List.mem_cons.mp hw with h | h
        · exact absurd (by rw [h] : a.id = w.id) hid
        · exact h
      simp only [List.map_cons, List.filter_cons, if_neg hid]
      rw [if_neg (by simp [hflags a (by simp)])]
      exact ih hpt hwt (fun o ho => hflags o (by simp [ho]))

/-- C3: for every non-empty list of completed outcomes with their 1-based
sequence ids in order and no winner flag set, the Winner Selector marks
exactly one outcome: one whose mean cross-validation score is maximal, and
among equal maximal scores the one with the earliest sequence index. -/
theorem winner_selection_first_max (results : List Outcome)
    (hne : results ≠ [])
    (hids : results.Pairwise (fun a b => a.id < b.id))
    (hflags : ∀ o ∈ results, o.is_winner = false) :
    ∃ w ∈ results,
      (∀ o ∈ results, o.cv_score ≤ w.cv_score) ∧
      (∀ o ∈ results, o.cv_score = w.cv_score → w.id ≤ o.id) ∧
      (select_winner results).filter (fun o => o.is_winner) = [{ w with is_winner := true }] := by
  obtain ⟨w, rest, h⟩ : ∃ w rest, sortByScoreDesc results = w :: rest := by
    rcases hs : sortByScoreDesc results with _ | ⟨w, r⟩
    · have := isortBy_length (fun a b => decide (b.cv_score ≤ a.cv_score)) results
      rw [show isortBy (fun a b => decide (b.cv_score ≤ a.cv_score)) results = sortByScoreDesc results from rfl, hs] at this
      exact absurd (List.length_eq_zero.mp this.symm) hne
    · exact ⟨w, r, rfl⟩
  refine ⟨w, sortDesc_head_mem results w rest h, sortDesc_head_max results w rest h,
    sortDesc_head_first results hids w rest h, ?_⟩
  unfold select_winner
  rw [h]
  exact filter_winner_map w results hids (sortDesc_head_mem results w rest h) hflags

/-- C3 witness: winner selection on three concrete outcomes with a score tie. -/
theorem winner_selection_first_max_witness :
    threeOutcomes ≠ [] ∧
    (∃ w ∈ threeOutcomes,
      (∀ o ∈ threeOutcomes, o.cv_score ≤ w.cv_score) ∧
      (∀ o ∈ threeOutcomes, o.cv_score = w.cv_score → w.id ≤ o.id) ∧
      (select_winner threeOutcomes).filter (fun o => o.is_winner) = [{ w with is_winner := true }]) :=
  ⟨by decide, winner_selection_first_max threeOutcomes (by decide) (by decide) (by decide)⟩

theorem runLoop_success_char (build : String → Except String Unit)
    (exec : ℕ → String → Except String StratResult) :
    ∀ (matched : List PaperMatch) (idx : ℕ),
      (∀ m ∈ matched, build m.paper_id = .ok ()) →
      (runExperimentLoop build exec idx matched).2.2 = none ∧
      (runExperimentLoop build exec idx matched).2.1 =
        (matched.enumFrom idx).filterMap (fun q =>
          match get_paper_entry q.2.paper_id with
          | none => none
          | some _ =>
            match exec q.1 q.2.paper_id with
            | .ok r => some { id := q.1, paper_id := q.2.paper_id, technique := q.2.technique,
                              cv_score := r.mean_score, std := r.std_score,
                              predictions := r.predictions, is_winner := false }
            | .error _ => none) ∧
      (∀ q ∈ matched.enumFrom idx, ∀ e, (get_paper_entry q.2.paper_id).isSome = true →
        exec q.1 q.2.paper_id = .error e →
        RunEvent.experimentError q.1 q.2.paper_id e ∈ (runExperimentLoop build exec idx matched).1) := by
  intro matched
  induction matched with
  | nil =>
    intro idx _
    refine ⟨rfl, rfl, ?_⟩
    intro q hq
    simp [List.enumFrom] at hq
  | cons m rest ih =>
    intro idx hb
    have hbm : build m.paper_id = .ok () := hb m (by simp)
    obtain ⟨ih1, ih2, ih3⟩ := ih (idx + 1) (fun x hx => hb x (by simp [hx]))
    rcases hpe : get_paper_entry m.paper_id with _ | pe
    · have hstep : runExperimentLoop build exec idx (m :: rest) =
          runExperimentLoop build exec (idx + 1) rest := by
        simp [runExperimentLoop, hpe]
      refine ⟨hstep ▸ ih1, ?_, ?_⟩
      · rw [hstep, ih2, List.enumFrom_cons]
        simp [List.filterMap_cons, hpe]
      · intro q hq e hsome hex
        rw [List.enumFrom_cons] at hq
        rcases List.mem_cons.mp hq with rfl | hq
        · rw [hpe] at hsome
          simp at hsome
        · exact hstep ▸ ih3 q hq e hsome hex
    · cases hex : exec idx m.paper_id with
      | error e =>
        have hstep : runExperimentLoop build exec idx (m :: rest) =
            (RunEvent.experimentStart idx m.paper_id ::
               RunEvent.experimentError idx m.paper_id e ::
               (runExperimentLoop build exec (idx + 1) rest).1,
             (runExperimentLoop build exec (idx + 1) rest).2.1,
             (runExperimentLoop build exec (idx + 1) rest).2.2) := by
          simp [runExperimentLoop, hpe, hbm, hex]
        refine ⟨by rw [hstep]; exact ih1, ?_, ?_⟩
        · rw [hstep]
          simp only []
          rw [ih2, List.enumFrom_cons]
          simp [List.filterMap_cons, hpe, hex]
        · intro q hq e' hsome hex'
          rw [List.enumFrom_cons] at hq
          rcases List.mem_cons.mp hq with rfl | hq
          · have : e' = e := by
              rw [hex] at hex'
              exact (Except.error.injEq _ _).mp hex'.symm
            subst this
            rw [hstep]
            simp
          · have := ih3 q hq e' hsome hex'
            rw [hstep]
            simp only [List.mem_cons]
            tauto
      | ok r =>
        have hstep : runExperimentLoop build exec idx (m :: rest) =
            (RunEvent.experimentStart idx m.paper_id ::
               (if r.extra_info ≠ "" then [RunEvent.logNote idx r.extra_info] else []) ++
               RunEvent.experimentResult idx m.paper_id (roundTo4 r.mean_score) ::
               (runExperimentLoop build exec (idx + 1) rest).1,
             { id := idx, paper_id := m.paper_id, technique := m.technique,
               cv_score := r.mean_score, std := r.std_score,
               predictions := r.predictions, is_winner := false } ::
               (runExperimentLoop build exec (idx + 1) rest).2.1,
             (runExperimentLoop build exec (idx + 1) rest).2.2) := by
          simp [runExperimentLoop, hpe, hbm, hex]
        refine ⟨by rw [hstep]; exact ih1, ?_, ?_⟩
        · rw [hstep]
          simp only []
          rw [ih2, List.enumFrom_cons]
          simp [List.filterMap_cons, hpe, hex]
        · intro q hq e' hsome hex'
          rw [List.enumFrom_cons] at hq
          rcases List.mem_cons.mp hq with rfl | hq
          · rw [hex] at hex'
            exact absurd hex' (by simp)
          · have := ih3 q hq e' hsome hex'
            rw [hstep]
            simp only [List.mem_cons, List.mem_append]
            tauto

/-- C2 counterexample: pipeline construction happens BEFORE the per-strategy
`try:` block, so a construction failure is not caught: with two matched
strategies whose construction oracle raises on the first, the loop emits no
experiment-error event, never reaches the second strategy (whose execution
would succeed), and the run aborts — contradicting the claim that a
construction failure is reported and skipped. -/
theorem construction_failure_aborts_run :
    runExperimentLoop failingBuild okExec 1 twoMatches = ([], [], some "construction boom") ∧
    experimentsPhaseStatus failingBuild okExec twoMatches =
      PhaseStatus.crashed "construction boom" := by
  decide

/-- C2 amended: provided every matched strategy's pre-`try:` work
(preprocessing and pipeline construction) succeeds, an error raised by any
strategy's execution phase (cross-validation, fitting, prediction) is caught:
an experiment-error event carrying the strategy's sequence id, paper id and
error message is emitted, every other strategy still runs (the outcome list is
exactly the successes, in order), the loop never aborts, and the run fails at
top level exactly when zero strategies completed. -/
theorem experiment_loop_error_recovery (matched : List PaperMatch)
    (build : String → Except String Unit) (exec : ℕ → String → Except String StratResult)
    (hbuild : ∀ m ∈ matched, build m.paper_id = .ok ()) :
    (runExperimentLoop build exec 1 matched).2.2 = none ∧
    (runExperimentLoop build exec 1 matched).2.1 =
      (matched.enumFrom 1).filterMap (fun q =>
        match get_paper_entry q.2.paper_id with
        | none => none
        | some _ =>
          match exec q.1 q.2.paper_id with
          | .ok r => some { id := q.1, paper_id := q.2.paper_id, technique := q.2.technique,
                            cv_score := r.mean_score, std := r.std_score,
                            predictions := r.predictions, is_winner := false }
          | .error _ => none) ∧
    (∀ q ∈ matched.enumFrom 1, ∀ e, (get_paper_entry q.2.paper_id).isSome = true →
      exec q.1 q.2.paper_id = .error e →
      RunEvent.experimentError q.1 q.2.paper_id e ∈ (runExperimentLoop build exec 1 matched).1) ∧
    (experimentsPhaseStatus build exec matched = PhaseStatus.failedNoExperiments ↔
      (runExperimentLoop build exec 1 matched).2.1 = []) := by
  obtain ⟨h1, h2, h3⟩ := runLoop_success_char build exec matched 1 hbuild
  refine ⟨h1, h2, h3, ?_⟩
  simp only [experimentsPhaseStatus, h1]
  constructor
  · intro h
    by_cases he : (runExperimentLoop build exec 1 matched).2.1.isEmpty
    · exact List.isEmpty_iff.mp he
    · rw [if_neg he] at h
      exact absurd h (by simp)
  · intro h
    rw [if_pos (by simp [h])]

/-- C2 witness: with construction succeeding and the first strategy's
execution raising, the error event is emitted, the second strategy completes,
and the run does not fail. -/
theorem experiment_loop_error_recovery_witness :
    (∀ m ∈ twoMatches, okBuild m.paper_id = .ok ()) ∧
    (runExperimentLoop okBuild mixedExec 1 twoMatches).2.2 = none ∧
    RunEvent.experimentError 1 "kingma2015" "fit exploded" ∈
      (runExperimentLoop okBuild mixedExec 1 twoMatches).1 ∧
    (runExperimentLoop okBuild mixedExec 1 twoMatches).2.1 =
      [{ id := 2, paper_id := "zoph2017", technique := "Hyperparameter Search",
         cv_score := mkRat 4 5, std := 0, predictions := [1, 0], is_winner := false }] ∧
    experimentsPhaseStatus okBuild mixedExec twoMatches = PhaseStatus.completed := by
  refine ⟨fun m _ => rfl, (experiment_loop_error_recovery twoMatches okBuild mixedExec (fun m _ => rfl)).1, ?_, ?_, ?_⟩
  · decide
  · decide
  · decide

theorem paperTech_block_no_status (matched : List PaperMatch) :
    ∀ n ∈ matched.flatMap (fun m =>
      [KGNode.paper ("paper:" ++ m.paper_id) (m.paper_title.take 40 ++ "...") m.paper_id,
       KGNode.tech ("tech:" ++ m.paper_id) m.technique]), n.statusOf = none := by
  intro n hn
  rcases List.mem_flatMap.mp hn with ⟨m, _, hn2⟩
  simp only [List.mem_cons, List.not_mem_nil, or_false] at hn2
  rcases hn2 with rfl | rfl
  · rfl
  · rfl

theorem paperTech_block_length (matched : List PaperMatch) :
    (matched.flatMap (fun m =>
      [KGNode.paper ("paper:" ++ m.paper_id) (m.paper_title.take 40 ++ "...") m.paper_id,
       KGNode.tech ("tech:" ++ m.paper_id) m.technique])).length = 2 * matched.length := by
  induction matched with
  | nil => rfl
  | cons m rest ih =>
    simp only [List.flatMap_cons, List.length_append, ih]
    simp
    ring

/-- C7: in the built knowledge graph, the nodes carrying a `status` are
exactly one result node per completed outcome, in order, with status `winner`
when the outcome is flagged, else `proven` exactly when its score strictly
exceeds the baseline score, else `unproven`; the graph's `proven` count is the
number of result nodes whose status is `proven` or `winner`, and its
`unproven` count is the number of result nodes whose status is `unproven`. -/
theorem knowledge_graph_status_counts (competition : String) (matched : List PaperMatch)
    (results : List Outcome) (baseline best : ℚ) :
    (build_knowledge_graph competition matched results baseline best).nodes.filter
        (fun n => n.statusOf.isSome) =
      results.map (fun r =>
        KGNode.result ("result:" ++ toString r.id) r.cv_score
          (if r.is_winner then "winner"
           else if r.cv_score > baseline then "proven" else "unproven")
          r.is_winner ("CV=" ++ fmtFix4 r.cv_score)) ∧
    (build_knowledge_graph competition matched results baseline best).proven =
      ((build_knowledge_graph competition matched results baseline best).nodes.filter
        (fun n => match n with
          | KGNode.result _ _ s _ _ => s == "proven" || s == "winner"
          | _ => false)).length ∧
    (build_knowledge_graph competition matched results baseline best).unproven =
      ((build_knowledge_graph competition matched results baseline best).nodes.filter
        (fun n => match n with
          | KGNode.result _ _ s _ _ => s == "unproven"
          | _ => false)).length := by
  refine ⟨?_, ?_, ?_⟩
  · simp only [build_knowledge_graph, List.filter_append]
    rw [List.filter_eq_nil_iff.mpr
      (fun n hn => by simp [paperTech_block_no_status matched n hn])]
    rw [List.filter_eq_self.mpr (fun n hn => by
      rcases List.mem_map.mp hn with ⟨r, _, rfl⟩
      rfl)]
    simp
  · simp only [build_knowledge_graph, List.countP_append, List.filter_append,
      List.length_append, List.countP_eq_length_filter]
    rw [show List.filter (fun n => n.statusOf == some "proven" || n.statusOf == some "winner")
          (matched.flatMap (fun m =>
            [KGNode.paper ("paper:" ++ m.paper_id) (m.paper_title.take 40 ++ "...") m.paper_id,
             KGNode.tech ("tech:" ++ m.paper_id) m.technique])) = [] from
        List.filter_eq_nil_iff.mpr (fun n hn => by
          simp [paperTech_block_no_status matched n hn])]
    rw [show List.filter (fun n => match n with
          | KGNode.result _ _ s _ _ => s == "proven" || s == "winner"
          | _ => false)
          (matched.flatMap (fun m =>
            [KGNode.paper ("paper:" ++ m.paper_id) (m.paper_title.take 40 ++ "...") m.paper_id,
             KGNode.tech ("tech:" ++ m.paper_id) m.technique])) = [] from
        List.filter_eq_nil_iff.mpr (fun n hn => by
          rcases List.mem_flatMap.mp hn with ⟨m, _, hn2⟩
          simp only [List.mem_cons, List.not_mem_nil, or_false] at hn2
          rcases hn2 with rfl | rfl
          · simp
          · simp)]
    simp only [List.length_nil, Nat.zero_add]
    rw [← List.countP_eq_length_filter, ← List.countP_eq_length_filter]
    refine List.countP_congr (fun n hn => ?_)
    rcases List.mem_map.mp hn with ⟨r, _, rfl⟩
    simp [KGNode.statusOf]
  · simp only [build_knowledge_graph, List.countP_append, List.filter_append,
      List.length_append, List.countP_eq_length_filter]
    rw [show List.filter (fun n => n.statusOf == some "unproven")
          (matched.flatMap (fun m =>
            [KGNode.paper ("paper:" ++ m.paper_id) (m.paper_title.take 40 ++ "...") m.paper_id,
             KGNode.tech ("tech:" ++ m.paper_id) m.technique])) = [] from
        List.filter_eq_nil_iff.mpr (fun n hn => by
          simp [paperTech_block_no_status matched n hn])]
    rw [show List.filter (fun n => match n with
          | KGNode.result _ _ s _ _ => s == "unproven"
          | _ => false)
          (matched.flatMap (fun m =>
            [KGNode.paper ("paper:" ++ m.paper_id) (m.paper_title.take 40 ++ "...") m.paper_id,
             KGNode.tech ("tech:" ++ m.paper_id) m.technique])) = [] from
        List.filter_eq_nil_iff.mpr (fun n hn => by
          rcases List.mem_flatMap.mp hn with ⟨m, _, hn2⟩
          simp only [List.mem_cons, List.not_mem_nil, or_false] at hn2
          rcases hn2 with rfl | rfl
          · simp
          · simp)]
    simp only [List.length_nil, Nat.zero_add]
    rw [← List.countP_eq_length_filter, ← List.countP_eq_length_filter]
    refine List.countP_congr (fun n hn => ?_)
    rcases List.mem_map.mp hn with ⟨r, _, rfl⟩
    simp [KGNode.statusOf]

/-- C10: whenever every result's paper id occurs among the matched papers, the
built knowledge graph is well-formed: `2·|matched| + |results|` nodes,
`|matched| + |results|` edges, and every edge endpoint is the id of a node
present in the node list. -/
theorem knowledge_graph_wellformed (competition : String) (matched : List PaperMatch)
    (results : List Outcome) (baseline best : ℚ)
    (hpid : ∀ r ∈ results, ∃ m ∈ matched, m.paper_id = r.paper_id) :
    (build_knowledge_graph competition matched results baseline best).nodes.length =
      2 * matched.length + results.length ∧
    (build_knowledge_graph competition matched results baseline best).edges.length =
      matched.length + results.length ∧
    ∀ e ∈ (build_knowledge_graph competition matched results baseline best).edges,
      (∃ n ∈ (build_knowledge_graph competition matched results baseline best).nodes,
        n.nodeId = e.source) ∧
      (∃ n ∈ (build_knowledge_graph competition matched results baseline best).nodes,
        n.nodeId = e.target) := by
  refine ⟨?_, ?_, ?_⟩
  · simp only [build_knowledge_graph, List.length_append, List.length_map]
    rw [paperTech_block_length]
  · simp only [build_knowledge_graph, List.length_append, List.length_map]
  · intro e he
    simp only [build_knowledge_graph, List.mem_append] at he
    rcases he with he | he
    · rcases List.mem_map.mp he with ⟨m, hm, rfl⟩
      constructor
      · refine ⟨KGNode.paper ("paper:" ++ m.paper_id) (m.paper_title.take 40 ++ "...") m.paper_id, ?_, rfl⟩
        simp only [build_knowledge_graph, List.mem_append]
        exact Or.inl (List.mem_flatMap.mpr ⟨m, hm, by simp⟩)
      · refine ⟨KGNode.tech ("tech:" ++ m.paper_id) m.technique, ?_, rfl⟩
        simp only [build_knowledge_graph, List.mem_append]
        exact Or.inl (List.mem_flatMap.mpr ⟨m, hm, by simp⟩)
    · rcases List.mem_map.mp he with ⟨r, hr, rfl⟩
      constructor
      · rcases hpid r hr with ⟨m, hm, hmid⟩
        refine ⟨KGNode.tech ("tech:" ++ m.paper_id) m.technique, ?_, by simp [KGNode.nodeId, hmid]⟩
        simp only [build_knowledge_graph, List.mem_append]
        exact Or.inl (List.mem_flatMap.mpr ⟨m, hm, by simp⟩)
      · refine ⟨KGNode.result ("result:" ++ toString r.id) r.cv_score
          (if r.is_winner then "winner"
           else if r.cv_score > baseline then "proven" else "unproven")
          r.is_winner ("CV=" ++ fmtFix4 r.cv_score), ?_, rfl⟩
        simp only [build_knowledge_graph, List.mem_append]
        exact Or.inr (List.mem_map.mpr ⟨r, hr, rfl⟩)

/-- C10 witness: the well-formedness facts on a concrete two-match,
two-result graph. -/
theorem knowledge_graph_wellformed_witness :
    (∀ r ∈ twoResults, ∃ m ∈ twoMatches, m.paper_id = r.paper_id) ∧
    (build_knowledge_graph "titanic" twoMatches twoResults (mkRat 4 5) (mkRat 4 5)).nodes.length = 6 ∧
    (build_knowledge_graph "titanic" twoMatches twoResults (mkRat 4 5) (mkRat 4 5)).edges.length = 4 ∧
    (∀ e ∈ (build_knowledge_graph "titanic" twoMatches twoResults (mkRat 4 5) (mkRat 4 5)).edges,
      (∃ n ∈ (build_knowledge_graph "titanic" twoMatches twoResults (mkRat 4 5) (mkRat 4 5)).nodes,
        n.nodeId = e.source) ∧
      (∃ n ∈ (build_knowledge_graph "titanic" twoMatches twoResults (mkRat 4 5) (mkRat 4 5)).nodes,
        n.nodeId = e.target)) := by
  have h := knowledge_graph_wellformed "titanic" twoMatches twoResults (mkRat 4 5) (mkRat 4 5)
    (by decide)
  exact ⟨by decide, h.1, h.2.1, h.2.2⟩

theorem maskFilter_length {α : Type} :
    ∀ (mask : List Bool) (xs : List α), mask.length = xs.length →
      (maskFilter mask xs).length = mask.count true := by
  intro mask
  induction mask with
  | nil => intro xs _; simp [maskFilter]
  | cons b m ih =>
    intro xs h
    cases xs with
    | nil => simp at h
    | cons x t =>
      simp only [List.length_cons, Nat.succ.injEq] at h
      have iht := ih t h
      simp only [maskFilter, List.zip_cons_cons, List.filterMap_cons] at iht ⊢
      cases b
      · simpa [List.count_cons] using iht
      · simpa [List.count_cons] using iht

/-- C6: the pseudo-labeling mode.  When the fitted model exposes class
probabilities and strictly more than 10 test rows have maximum predicted-class
probability strictly above 0.9, exactly those confident rows, labelled with
the model's own predictions, are appended to the training set, 5-fold
cross-validation and the final fit run on the combined set, and the full test
set is predicted; with 10 or fewer confident rows, or no probability support,
the mode falls back to standard 5-fold cross-validation, fitting and
prediction on the original training set.  Predictions always cover the full
test set. -/
theorem pseudo_label_behavior
    (cross_val : ℕ → String → List (List Cell) → List ℚ → List ℚ)
    (fit_predict : List (List Cell) → List ℚ → List (List Cell) → List ℚ)
    (fit_proba? : Option (List (List Cell) → List ℚ → List (List Cell) → List (List ℚ)))
    (X_train : List (List Cell)) (y_train : List ℚ) (X_test : List (List Cell))
    (problem_type scoring : String)
    (hpred : ∀ a b c, (fit_predict a b c).length = c.length)
    (hproba : ∀ fp, fit_proba? = some fp → ∀ a b c, (fp a b c).length = c.length) :
    (fit_proba? = none →
      run_pseudo_label_experiment cross_val fit_predict fit_proba? X_train y_train X_test
          problem_type scoring =
        (cross_val 5 scoring X_train y_train, fit_predict X_train y_train X_test,
         "Standard training (pseudo-labeling not confident enough)")) ∧
    (∀ fp, fit_proba? = some fp →
      (((fp X_train y_train X_test).map rowMaxD).map (fun p => decide (p > mkRat 9 10))).count true ≤ 10 →
      run_pseudo_label_experiment cross_val fit_predict fit_proba? X_train y_train X_test
          problem_type scoring =
        (cross_val 5 scoring X_train y_train, fit_predict X_train y_train X_test,
         "Standard training (pseudo-labeling not confident enough)")) ∧
    (∀ fp, fit_proba? = some fp →
      ∀ n, n = (((fp X_train y_train X_test).map rowMaxD).map (fun p => decide (p > mkRat 9 10))).count true →
      10 < n →
      (run_pseudo_label_experiment cross_val fit_predict fit_proba? X_train y_train X_test
          problem_type scoring =
        (cross_val 5 scoring
           (X_train ++ maskFilter (((fp X_train y_train X_test).map rowMaxD).map (fun p => decide (p > mkRat 9 10))) X_test)
           (y_train ++ maskFilter (((fp X_train y_train X_test).map rowMaxD).map (fun p => decide (p > mkRat 9 10))) (fit_predict X_train y_train X_test)),
         fit_predict
           (X_train ++ maskFilter (((fp X_train y_train X_test).map rowMaxD).map (fun p => decide (p > mkRat 9 10))) X_test)
           (y_train ++ maskFilter (((fp X_train y_train X_test).map rowMaxD).map (fun p => decide (p > mkRat 9 10))) (fit_predict X_train y_train X_test))
           X_test,
         s!"Pseudo-labeled {n} samples") ∧
       (maskFilter (((fp X_train y_train X_test).map rowMaxD).map (fun p => decide (p > mkRat 9 10))) X_test).length = n)) ∧
    (run_pseudo_label_experiment cross_val fit_predict fit_proba? X_train y_train X_test
        problem_type scoring).2.1.length = X_test.length := by
  refine ⟨?_, ?_, ?_, ?_⟩
  · intro h
    simp [run_pseudo_label_experiment, h]
  · intro fp hfp hn
    simp only [run_pseudo_label_experiment, hfp]
    rw [if_neg (by omega)]
  · intro fp hfp n hn hgt
    subst hn
    constructor
    · simp only [run_pseudo_label_experiment, hfp]
      rw [if_pos (by omega)]
    · refine maskFilter_length _ _ ?_
      rw [List.length_map, List.length_map]
      exact hproba fp hfp X_train y_train X_test
  · rcases hp : fit_proba? with _ | fp
    · simp [run_pseudo_label_experiment, hp, hpred]
    · simp only [run_pseudo_label_experiment, hp]
      by_cases hc : 10 < (((fp X_train y_train X_test).map rowMaxD).map (fun p => decide (p > mkRat 9 10))).count true
      · rw [if_pos hc]
        exact hpred _ _ _
      · rw [if_neg hc]
        exact hpred _ _ _

/-- C6 witness: with a fully-confident probability oracle and twelve test
rows, the pseudo-labeling branch fires and selects all twelve rows; the
predictions cover the full test set. -/
theorem pseudo_label_behavior_witness :
    (∀ a b c, (toyFitPredict a b c).length = c.length) ∧
    ((((toyFitProba [[Cell.num 0]] [0] twelveRows).map rowMaxD).map
        (fun p => decide (p > mkRat 9 10))).count true = 12) ∧
    (maskFilter (((toyFitProba [[Cell.num 0]] [0] twelveRows).map rowMaxD).map
        (fun p => decide (p > mkRat 9 10))) twelveRows).length = 12 ∧
    (run_pseudo_label_experiment toyCrossVal toyFitPredict (some toyFitProba)
        [[Cell.num 0]] [0] twelveRows "classification" "accuracy").2.1.length =
      twelveRows.length := by
  have h := pseudo_label_behavior toyCrossVal toyFitPredict (some toyFitProba)
    [[Cell.num 0]] [0] twelveRows "classification" "accuracy"
    (fun a b c => by simp [toyFitPredict])
    (fun fp hfp a b c => by
      injection hfp with hfp2
      subst hfp2
      simp [toyFitProba])
  refine ⟨fun a b c => by simp [toyFitPredict], by decide, ?_, h.2.2.2⟩
  exact (h.2.2.1 toyFitProba rfl 12 (by decide) (by decide)).2

theorem dfGet?_cons (p : String × List Cell) (t : DF) (c : String) :
    dfGet? (p :: t) c = if p.1 == c then some p.2 else dfGet? t c := by
  by_cases h : (p.1 == c) = true
  · rw [if_pos h]
    show (List.find? (fun q => q.1 == c) (p :: t)).map (·.2) = some p.2
    rw [@List.find?_cons_of_pos _ (fun q => q.1 == c) p t h]
    rfl
  · rw [if_neg h]
    show (List.find? (fun q => q.1 == c) (p :: t)).map (·.2) =
      (List.find? (fun q => q.1 == c) t).map (·.2)
    rw [@List.find?_cons_of_neg _ (fun q => q.1 == c) p t h]

theorem dfGet?_isSome_of_mem (df : DF) (c : String) (h : c ∈ dfNames df) :
    (dfGet? df c).isSome = true := by
  induction df with
  | nil => simp [dfNames] at h
  | cons p t ih =>
    rw [dfGet?_cons]
    by_cases hc : (p.1 == c) = true
    · simp [hc]
    · rw [if_neg hc]
      simp only [dfNames, List.map_cons, List.mem_cons] at h
      rcases h with h | h
      · exact absurd (by simp [h]) hc
      · exact ih h

theorem dfNames_dropColumns (df : DF) (cols : List String) :
    dfNames (dropColumns df cols) = (dfNames df).filter (fun n => !(cols.contains n)) := by
  induction df with
  | nil => rfl
  | cons p t ih =>
    by_cases hc : p.1 ∈ cols
    · simpa [dropColumns, dfNames, List.filter_cons, hc] using ih
    · simpa [dropColumns, dfNames, List.filter_cons, hc] using ih

theorem dfGet?_dropColumns (df : DF) (cols : List String) (c : String) :
    dfGet? (dropColumns df cols) c = if cols.contains c then none else dfGet? df c := by
  induction df with
  | nil => by_cases hc : c ∈ cols <;> simp [dropColumns, dfGet?, hc]
  | cons p t ih =>
    by_cases hp : p.1 ∈ cols
    · by_cases hc : c ∈ cols
      · simp [dropColumns, List.filter_cons, hp, hc] at ih ⊢
        exact ih
      · have hne : (p.1 == c) = false := by
          cases hb : p.1 == c
          · rfl
          · exact absurd (beq_iff_eq.mp hb ▸ hp) hc
        simp [dropColumns, List.filter_cons, hp, hc, dfGet?_cons, hne] at ih ⊢
        exact ih
    · by_cases hbc : (p.1 == c) = true
      · have hc : c ∉ cols := fun h => hp (beq_iff_eq.mp hbc ▸ h)
        simp [dropColumns, List.filter_cons, hp, hc, dfGet?_cons, hbc]
      · by_cases hc : c ∈ cols
        · simp [dropColumns, List.filter_cons, hp, hc, dfGet?_cons, hbc] at ih ⊢
          exact ih
        · simp [dropColumns, List.filter_cons, hp, hc, dfGet?_cons, hbc] at ih ⊢
          exact ih

theorem dfNames_dfSelect (df : DF) (cols : List String)
    (h : ∀ c ∈ cols, (dfGet? df c).isSome = true) :
    dfNames (dfSelect df cols) = cols := by
  induction cols with
  | nil => rfl
  | cons c0 rest ih =>
    obtain ⟨col0, hcol0⟩ := Option.isSome_iff_exists.mp (h c0 (by simp))
    have ihr := ih (fun x hx => h x (by simp [hx]))
    simp only [dfSelect, List.filterMap_cons, hcol0, Option.map_some'] at ihr ⊢
    simp only [dfNames, List.map_cons] at ihr ⊢
    rw [ihr]

theorem dfGet?_dfSelect (df : DF) (cols : List String) (c : String)
    (h : ∀ x ∈ cols, (dfGet? df x).isSome = true) :
    dfGet? (dfSelect df cols) c = if cols.contains c then dfGet? df c else none := by
  induction cols with
  | nil => rfl
  | cons c0 rest ih =>
    obtain ⟨col0, hcol0⟩ := Option.isSome_iff_exists.mp (h c0 (by simp))
    have ihr := ih (fun x hx => h x (by simp [hx]))
    simp only [dfSelect, List.filterMap_cons, hcol0, Option.map_some'] at ihr ⊢
    rw [dfGet?_cons]
    by_cases hbc : (c0 == c) = true
    · rw [if_pos hbc, if_pos (by simp [List.contains_cons, beq_iff_eq.mp hbc])]
      rw [beq_iff_eq.mp hbc] at hcol0
      exact hcol0.symm
    · rw [if_neg hbc, ihr]
      have hcc : (c0 :: rest).contains c = rest.contains c := by
        simp only [List.contains_cons]
        rw [show (c == c0) = false by
          cases hb : (c == c0)
          · rfl
          · exact absurd (by simp [beq_iff_eq.mp hb]) hbc]
        simp
      rw [hcc]

theorem commonColumns_mem (a b : DF) (c : String) :
    c ∈ commonColumns a b ↔ c ∈ dfNames a ∧ c ∈ dfNames b := by
  simp [commonColumns, List.mem_dedup, isortBy_mem, List.mem_filter]

theorem encodeFrames_names (f : Bool) :
    ∀ (tr te xt xe : DF), encodeFrames f tr te = some (xt, xe) →
      dfNames xt = dfNames tr ∧ dfNames xe = dfNames te := by
  intro tr
  induction tr with
  | nil =>
    intro te xt xe h
    cases te with
    | nil =>
      simp only [encodeFrames, Option.some.injEq] at h
      obtain ⟨rfl, rfl⟩ := Prod.mk.injEq _ _ _ _ |>.mp h.symm
      exact ⟨rfl, rfl⟩
    | cons q te' => simp [encodeFrames] at h
  | cons p tr' ih =>
    intro te xt xe h
    obtain ⟨c1, col1⟩ := p
    cases te with
    | nil => simp [encodeFrames] at h
    | cons q te' =>
      obtain ⟨c2, col2⟩ := q
      cases hpr : encodeOne f col1 col2 with
      | none => simp [encodeFrames, hpr] at h
      | some pr =>
        obtain ⟨a, b⟩ := pr
        simp only [encodeFrames, hpr] at h
        rcases Option.map_eq_some'.mp h with ⟨⟨xt', xe'⟩, hrec, hpair⟩
        obtain ⟨rfl, rfl⟩ := Prod.mk.injEq _ _ _ _ |>.mp hpair.symm
        obtain ⟨h1, h2⟩ := ih te' xt' xe' hrec
        constructor
        · simp [dfNames, List.map_cons] at h1 ⊢
          exact h1
        · simp [dfNames, List.map_cons] at h2 ⊢
          exact h2

theorem encodeFrames_get (f : Bool) :
    ∀ (tr te xt xe : DF), encodeFrames f tr te = some (xt, xe) →
      dfNames tr = dfNames te →
      ∀ c trc, dfGet? tr c = some trc →
        ∃ tec xtc xec, dfGet? te c = some tec ∧ encodeOne f trc tec = some (xtc, xec) ∧
          dfGet? xt c = some xtc ∧ dfGet? xe c = some xec := by
  intro tr
  induction tr with
  | nil =>
    intro te xt xe _ _ c trc hget
    simp [dfGet?] at hget
  | cons p tr' ih =>
    intro te xt xe h hn c trc hget
    obtain ⟨c1, col1⟩ := p
    cases te with
    | nil => simp [dfNames] at hn
    | cons q te' =>
      obtain ⟨c2, col2⟩ := q
      have hc12 : c1 = c2 ∧ dfNames tr' = dfNames te' := by
        simpa [dfNames] using hn
      obtain ⟨rfl, hn'⟩ := hc12
      cases hpr : encodeOne f col1 col2 with
      | none => simp [encodeFrames, hpr] at h
      | some pr =>
        obtain ⟨a, b⟩ := pr
        simp only [encodeFrames, hpr] at h
        rcases Option.map_eq_some'.mp h with ⟨⟨xt', xe'⟩, hrec, hpair⟩
        obtain ⟨rfl, rfl⟩ := Prod.mk.injEq _ _ _ _ |>.mp hpair.symm
        rw [dfGet?_cons] at hget
        by_cases hbc : (c1 == c) = true
        · rw [if_pos hbc] at hget
          have htrc : col1 = trc := by
            injection hget
          subst htrc
          refine ⟨col2, a, b, ?_, hpr, ?_, ?_⟩
          · rw [dfGet?_cons]
            exact if_pos hbc
          · rw [dfGet?_cons]
            exact if_pos hbc
          · rw [dfGet?_cons]
            exact if_pos hbc
        · rw [if_neg hbc] at hget
          obtain ⟨tec, xtc, xec, h1, h2, h3, h4⟩ := ih te' xt' xe' hrec hn' c trc hget
          refine ⟨tec, xtc, xec, ?_, h2, ?_, ?_⟩
          · rw [dfGet?_cons, if_neg hbc]
            exact h1
          · rw [dfGet?_cons, if_neg hbc]
            exact h3
          · rw [dfGet?_cons, if_neg hbc]
            exact h4

theorem encodeOne_object (f : Bool) (tr te a b : List Cell)
    (hobj : isObjectCol tr = true) (h : encodeOne f tr te = some (a, b)) :
    ∃ g : Cell → Cell, a = tr.map g ∧ b = te.map g ∧ ∀ x, ∃ q : ℚ, g x = Cell.num q := by
  unfold encodeOne at h
  rw [if_pos hobj] at h
  by_cases hf : f = true
  · rw [if_pos hf] at h
    simp only [Option.some.injEq] at h
    obtain ⟨rfl, rfl⟩ := Prod.mk.injEq _ _ _ _ |>.mp h.symm
    refine ⟨freqEncode (nonNullCells tr), rfl, rfl, ?_⟩
    intro x
    unfold freqEncode
    split
    · exact ⟨_, rfl⟩
    · exact ⟨_, rfl⟩
  · rw [if_neg hf] at h
    cases hstr : allStrs? (tr.map fillMissingTag ++ te.map fillMissingTag) with
    | none =>
      simp only [hstr] at h
      exact absurd h (by simp)
    | some pool =>
      simp only [hstr, Option.some.injEq] at h
      obtain ⟨rfl, rfl⟩ := Prod.mk.injEq _ _ _ _ |>.mp h.symm
      refine ⟨fun x => labelEncode (labelClasses pool) (fillMissingTag x), ?_, ?_, ?_⟩
      · rw [List.map_map]
        rfl
      · rw [List.map_map]
        rfl
      · intro x
        cases x with
        | num q => exact ⟨q, rfl⟩
        | str s => exact ⟨(labelClasses pool).indexOf s, rfl⟩
        | null => exact ⟨(labelClasses pool).indexOf "_missing_", rfl⟩

theorem mem_dfNames_of_dropColumns (df : DF) (cols : List String) (c : String)
    (h : c ∈ dfNames (dropColumns df cols)) : c ∈ dfNames df := by
  rw [dfNames_dropColumns] at h
  exact (List.mem_filter.mp h).1

theorem dfGet?_dropColumns_of_mem (df : DF) (cols : List String) (c : String)
    (h : c ∈ dfNames (dropColumns df cols)) :
    dfGet? (dropColumns df cols) c = dfGet? df c := by
  rw [dfNames_dropColumns] at h
  have hc := (List.mem_filter.mp h).2
  rw [dfGet?_dropColumns, if_neg (by simpa using hc)]

theorem featureFrameTrain_get (train_df test_df : DF) (target_col : String) (c : String)
    (h : c ∈ dfNames (featureFrameTrain train_df test_df target_col)) :
    dfGet? (featureFrameTrain train_df test_df target_col) c = dfGet? train_df c := by
  unfold featureFrameTrain at h ⊢
  cases hid : find_id_column test_df with
  | none =>
    simp only [hid] at h ⊢
    exact dfGet?_dropColumns_of_mem _ _ _ h
  | some i =>
    simp only [hid] at h ⊢
    rw [dfGet?_dropColumns_of_mem _ _ _ h]
    exact dfGet?_dropColumns_of_mem _ _ _ (mem_dfNames_of_dropColumns _ _ _ h)

theorem featureFrameTest_get (test_df : DF) (c : String)
    (h : c ∈ dfNames (featureFrameTest test_df)) :
    dfGet? (featureFrameTest test_df) c = dfGet? test_df c := by
  unfold featureFrameTest at h ⊢
  cases hid : find_id_column test_df with
  | none => simp only [hid]
  | some i =>
    simp only [hid] at h ⊢
    exact dfGet?_dropColumns_of_mem _ _ _ h

theorem basic_preprocess_elim (train_df test_df : DF) (target_col : String) (f : Bool)
    (Xtr : DF) (y : List Cell) (Xte : DF) (ids : Option (List Cell)) (idc : Option String)
    (h : basic_preprocess train_df test_df target_col f = some (Xtr, y, Xte, ids, idc)) :
    dfGet? train_df target_col = some y ∧
    idc = find_id_column test_df ∧
    ids = (find_id_column test_df).bind (fun c => dfGet? test_df c) ∧
    encodeFrames f
      (dropColumns (dfSelect (featureFrameTrain train_df test_df target_col)
         (commonColumns (featureFrameTrain train_df test_df target_col) (featureFrameTest test_df)))
         (highCardCols (dfSelect (featureFrameTrain train_df test_df target_col)
           (commonColumns (featureFrameTrain train_df test_df target_col) (featureFrameTest test_df)))))
      (dropColumns (dfSelect (featureFrameTest test_df)
         (commonColumns (featureFrameTrain train_df test_df target_col) (featureFrameTest test_df)))
         (highCardCols (dfSelect (featureFrameTrain train_df test_df target_col)
           (commonColumns (featureFrameTrain train_df test_df target_col) (featureFrameTest test_df)))))
      = some (Xtr, Xte) := by
  unfold basic_preprocess at h
  cases hy : dfGet? train_df target_col with
  | none =>
    rw [hy] at h
    exact absurd h (by simp)
  | some y0 =>
    rw [hy] at h
    simp only [] at h
    cases henc : encodeFrames f
        (dropColumns (dfSelect (featureFrameTrain train_df test_df target_col)
           (commonColumns (featureFrameTrain train_df test_df target_col) (featureFrameTest test_df)))
           (highCardCols (dfSelect (featureFrameTrain train_df test_df target_col)
             (commonColumns (featureFrameTrain train_df test_df target_col) (featureFrameTest test_df)))))
        (dropColumns (dfSelect (featureFrameTest test_df)
           (commonColumns (featureFrameTrain train_df test_df target_col) (featureFrameTest test_df)))
           (highCardCols (dfSelect (featureFrameTrain train_df test_df target_col)
             (commonColumns (featureFrameTrain train_df test_df target_col) (featureFrameTest test_df))))) with
    | none =>
      simp only [henc] at h
      exact absurd h (by simp)
    | some pr =>
      obtain ⟨xt, xe⟩ := pr
      simp only [henc, Option.some.injEq, Prod.mk.injEq] at h
      obtain ⟨h1, h2, h3, h4, h5⟩ := h
      refine ⟨?_, h5.symm, h4.symm, ?_⟩
      · rw [h2]
      · rw [h1, h3]

theorem select_drop_encode_props (f : Bool) (A B Xtr Xte : DF)
    (henc : encodeFrames f
      (dropColumns (dfSelect A (commonColumns A B)) (highCardCols (dfSelect A (commonColumns A B))))
      (dropColumns (dfSelect B (commonColumns A B)) (highCardCols (dfSelect A (commonColumns A B)))) =
      some (Xtr, Xte)) :
    dfNames Xtr = (commonColumns A B).filter
      (fun n => !((highCardCols (dfSelect A (commonColumns A B))).contains n)) ∧
    dfNames Xte = (commonColumns A B).filter
      (fun n => !((highCardCols (dfSelect A (commonColumns A B))).contains n)) ∧
    (∀ c ∈ dfNames Xtr, ∀ trIn, dfGet? A c = some trIn → isObjectCol trIn = true →
      ∃ teIn xtc xec, ∃ g : Cell → Cell,
        dfGet? B c = some teIn ∧ dfGet? Xtr c = some xtc ∧ dfGet? Xte c = some xec ∧
        xtc = trIn.map g ∧ xec = teIn.map g ∧ (∀ x, ∃ q : ℚ, g x = Cell.num q)) := by
  set co := commonColumns A B with hco
  set S := dfSelect A co with hS
  set dc := highCardCols S with hdc
  set T3 := dropColumns S dc with hT3d
  set SB := dfSelect B co with hSB
  set E3 := dropColumns SB dc with hE3d
  have hAmem : ∀ x ∈ co, (dfGet? A x).isSome = true := by
    intro x hx
    rw [hco] at hx
    exact dfGet?_isSome_of_mem _ _ ((commonColumns_mem A B x).mp hx).1
  have hBmem : ∀ x ∈ co, (dfGet? B x).isSome = true := by
    intro x hx
    rw [hco] at hx
    exact dfGet?_isSome_of_mem _ _ ((commonColumns_mem A B x).mp hx).2
  have hT3n : dfNames T3 = co.filter (fun n => !(dc.contains n)) := by
    rw [hT3d, dfNames_dropColumns, hS, dfNames_dfSelect A co hAmem]
  have hE3n : dfNames E3 = co.filter (fun n => !(dc.contains n)) := by
    rw [hE3d, dfNames_dropColumns, hSB, dfNames_dfSelect B co hBmem]
  obtain ⟨hXtrn, hXten⟩ := encodeFrames_names f T3 E3 Xtr Xte henc
  refine ⟨by rw [hXtrn, hT3n], by rw [hXten, hE3n], ?_⟩
  intro c hc trIn htrIn hobj
  rw [hXtrn, hT3n] at hc
  have hcc : c ∈ co := (List.mem_filter.mp hc).1
  have hcdrop : c ∉ dc := by
    simpa using (List.mem_filter.mp hc).2
  have hT3get : dfGet? T3 c = dfGet? A c := by
    rw [hT3d, dfGet?_dropColumns, if_neg (by simpa using hcdrop), hS,
      dfGet?_dfSelect A co c hAmem, if_pos (by simpa using hcc)]
  have hE3get : dfGet? E3 c = dfGet? B c := by
    rw [hE3d, dfGet?_dropColumns, if_neg (by simpa using hcdrop), hSB,
      dfGet?_dfSelect B co c hBmem, if_pos (by simpa using hcc)]
  have hnames : dfNames T3 = dfNames E3 := by rw [hT3n, hE3n]
  obtain ⟨tec, xtc, xec, hteg, henc1, hxt, hxe⟩ :=
    encodeFrames_get f T3 E3 Xtr Xte henc hnames c trIn (hT3get.trans htrIn)
  obtain ⟨g, hg1, hg2, hg3⟩ := encodeOne_object f trIn tec xtc xec hobj henc1
  exact ⟨tec, xtc, xec, g, hE3get.symm.trans hteg, hxt, hxe, hg1, hg2, hg3⟩

/-- C9 counterexample: a column that is numeric in the train frame but
string-valued in the test frame is left unencoded — the returned test frame
still holds a non-numeric value, contradicting the claim that every
non-numeric column is encoded to numeric values in both frames. -/
theorem preprocess_nonnumeric_test_column :
    basic_preprocess numTrainDF strTestDF "t" false =
      some ([("a", [Cell.num 1])], [Cell.num 0], [("a", [Cell.str "x"])], none, none) ∧
    ¬ (∀ p ∈ [("a", [Cell.str "x"])], ∀ cell ∈ p.2, ∃ q : ℚ, cell = Cell.num q) := by
  constructor
  · decide
  · intro h
    obtain ⟨q, hq⟩ := h ("a", [Cell.str "x"]) (by simp) (Cell.str "x") (by simp)
    exact absurd hq (by simp)

/-- C9 amended: whenever `basic_preprocess` returns, the X_train and X_test
frames carry exactly the same column list in the same order — the sorted
common feature columns minus the identifier and the dropped high-cardinality
string columns — and every column that is string-valued in the train frame is
encoded in both frames to numeric values by one shared mapping (label
encoding fit on the union of train and test values, or frequency encoding
from train frequencies); a column numeric in train but string-valued in test
is not covered (the claim fails there, see the counterexample). -/
theorem preprocess_column_alignment_encoding
    (train_df test_df : DF) (target_col : String) (f : Bool)
    (Xtr : DF) (y : List Cell) (Xte : DF) (ids : Option (List Cell)) (idc : Option String)
    (hres : basic_preprocess train_df test_df target_col f = some (Xtr, y, Xte, ids, idc)) :
    dfNames Xtr = preprocessPlannedColumns train_df test_df target_col ∧
    dfNames Xte = preprocessPlannedColumns train_df test_df target_col ∧
    (∀ c ∈ dfNames Xtr, ∀ trIn, dfGet? train_df c = some trIn → isObjectCol trIn = true →
      ∃ teIn xtc xec, ∃ g : Cell → Cell,
        dfGet? test_df c = some teIn ∧ dfGet? Xtr c = some xtc ∧ dfGet? Xte c = some xec ∧
        xtc = trIn.map g ∧ xec = teIn.map g ∧ (∀ x, ∃ q : ℚ, g x = Cell.num q)) := by
  obtain ⟨hy, hidc, hids, henc⟩ := basic_preprocess_elim _ _ _ _ _ _ _ _ _ hres
  obtain ⟨h1, h2, h3⟩ := select_drop_encode_props f
    (featureFrameTrain train_df test_df target_col) (featureFrameTest test_df) Xtr Xte henc
  have hplan : preprocessPlannedColumns train_df test_df target_col =
      (commonColumns (featureFrameTrain train_df test_df target_col) (featureFrameTest test_df)).filter
        (fun n => !((highCardCols (dfSelect (featureFrameTrain train_df test_df target_col)
          (commonColumns (featureFrameTrain train_df test_df target_col)
            (featureFrameTest test_df)))).contains n)) := rfl
  refine ⟨hplan ▸ h1, hplan ▸ h2, ?_⟩
  intro c hc trIn htrIn hobj
  have hcc : c ∈ commonColumns (featureFrameTrain train_df test_df target_col)
      (featureFrameTest test_df) := by
    rw [h1] at hc
    exact (List.mem_filter.mp hc).1
  have hmemA := ((commonColumns_mem _ _ c).mp hcc).1
  have hmemB := ((commonColumns_mem _ _ c).mp hcc).2
  have hAget : dfGet? (featureFrameTrain train_df test_df target_col) c = some trIn :=
    (featureFrameTrain_get train_df test_df target_col c hmemA).trans htrIn
  obtain ⟨teIn, xtc, xec, g, hB, hxt, hxe, hg1, hg2, hg3⟩ := h3 c hc trIn hAget hobj
  exact ⟨teIn, xtc, xec, g, (featureFrameTest_get test_df c hmemB).symm.trans hB,
    hxt, hxe, hg1, hg2, hg3⟩

/-- C9 witness: the alignment and shared-mapping facts on a concrete pair of
frames with an identifier column and a frequency-encoded categorical column. -/
theorem preprocess_column_alignment_encoding_witness :
    basic_preprocess witTrainDF witTestDF "t" true =
      some ([("c", [Cell.num (mkRat 1 2), Cell.num (mkRat 1 2)])], [Cell.num 0, Cell.num 1],
            [("c", [Cell.num (mkRat 1 2), Cell.num (mkRat 1 2)])],
            some [Cell.num 20, Cell.num 21], some "Id") ∧
    (dfNames [("c", [Cell.num (mkRat 1 2), Cell.num (mkRat 1 2)])] =
        preprocessPlannedColumns witTrainDF witTestDF "t" ∧
     dfNames [("c", [Cell.num (mkRat 1 2), Cell.num (mkRat 1 2)])] =
        preprocessPlannedColumns witTrainDF witTestDF "t" ∧
     (∀ c ∈ dfNames [("c", [Cell.num (mkRat 1 2), Cell.num (mkRat 1 2)])],
        ∀ trIn, dfGet? witTrainDF c = some trIn → isObjectCol trIn = true →
        ∃ teIn xtc xec, ∃ g : Cell → Cell,
          dfGet? witTestDF c = some teIn ∧
          dfGet? [("c", [Cell.num (mkRat 1 2), Cell.num (mkRat 1 2)])] c = some xtc ∧
          dfGet? [("c", [Cell.num (mkRat 1 2), Cell.num (mkRat 1 2)])] c = some xec ∧
          xtc = trIn.map g ∧ xec = teIn.map g ∧ (∀ x, ∃ q : ℚ, g x = Cell.num q))) :=
  ⟨by decide,
   preprocess_column_alignment_encoding witTrainDF witTestDF "t" true
     [("c", [Cell.num (mkRat 1 2), Cell.num (mkRat 1 2)])] [Cell.num 0, Cell.num 1]
     [("c", [Cell.num (mkRat 1 2), Cell.num (mkRat 1 2)])]
     (some [Cell.num 20, Cell.num 21]) (some "Id") (by decide)⟩

theorem find_id_column_mem (df : DF) (c : String) (h : find_id_column df = some c) :
    c ∈ dfNames df := by
  have := List.find?_some h
  simpa using this

theorem dfGet?_col_length (df : DF) (c : String) (col : List Cell) (n : ℕ)
    (hwf : ∀ p ∈ df, p.2.length = n) (h : dfGet? df c = some col) : col.length = n := by
  unfold dfGet? at h
  cases hf : List.find? (fun p => p.1 == c) df with
  | none => rw [hf] at h; exact absurd h (by simp)
  | some p =>
    rw [hf] at h
    have hp : p ∈ df := List.mem_of_find?_eq_some hf
    have : p.2 = col := by simpa using h
    rw [← this]
    exact hwf p hp

/-- C8: for every run that writes a submission (the fresh preprocessing pass
returns), the submission's target column is exactly the winner's predictions
— one row per test example, coerced to integers for classification — and the
identifier column is re-derived through the fixed preference order
PassengerId, Id, id, ID, with the test table's identifier values when one is
found and a synthesized 0-based row index otherwise. -/
theorem submission_shape (train_df test_df : DF) (target_col problem_type : String)
    (preds : List ℚ) (n : ℕ) (sub : Submission)
    (hwf : ∀ p ∈ test_df, p.2.length = n)
    (hpred : preds.length = n)
    (hsub : make_submission train_df test_df target_col problem_type preds = some sub) :
    sub.target_vals.length = n ∧
    sub.ids.length = n ∧
    sub.target_vals = (if problem_type == "classification"
      then preds.map (fun q => ((truncToInt q : ℤ) : ℚ)) else preds) ∧
    (problem_type = "classification" → ∀ v ∈ sub.target_vals, ∃ k : ℤ, v = (k : ℚ)) ∧
    sub.target_header = target_col ∧
    sub.id_header = (find_id_column test_df).getD "Id" ∧
    (∀ c, find_id_column test_df = some c →
      ∃ col, dfGet? test_df c = some col ∧ sub.ids = col) ∧
    (find_id_column test_df = none →
      sub.ids = (List.range n).map (fun (i : ℕ) => Cell.num (i : ℚ))) := by
  have hplen : (if problem_type == "classification"
      then preds.map (fun q => ((truncToInt q : ℤ) : ℚ)) else preds).length = n := by
    by_cases hcl : (problem_type == "classification") = true
    · simp [hcl, hpred]
    · simp [hcl, hpred]
  have hint : problem_type = "classification" →
      ∀ v ∈ (if problem_type == "classification"
        then preds.map (fun q => ((truncToInt q : ℤ) : ℚ)) else preds), ∃ k : ℤ, v = (k : ℚ) := by
    intro hcl v hv
    rw [if_pos (by simp [hcl])] at hv
    obtain ⟨q, _, rfl⟩ := List.mem_map.mp hv
    exact ⟨truncToInt q, rfl⟩
  unfold make_submission at hsub
  cases hbp : basic_preprocess train_df test_df target_col with
  | none =>
    rw [hbp] at hsub
    exact absurd hsub (by simp)
  | some r =>
    obtain ⟨A, Y, B, test_ids, id_col⟩ := r
    obtain ⟨-, hidc, hids, -⟩ := basic_preprocess_elim _ _ _ _ _ _ _ _ _ hbp
    rw [hbp] at hsub
    cases hid : find_id_column test_df with
    | some c0 =>
      have hcmem : c0 ∈ dfNames test_df := find_id_column_mem _ _ hid
      obtain ⟨col, hcol⟩ := Option.isSome_iff_exists.mp (dfGet?_isSome_of_mem _ _ hcmem)
      have hids' : test_ids = some col := by
        rw [hids, hid]
        simpa using hcol
      have hidc' : id_col = some c0 := by rw [hidc, hid]
      rw [hids', hidc'] at hsub
      simp only [Option.some.injEq] at hsub
      subst hsub
      refine ⟨hplen, ?_, rfl, hint, rfl, by simp, ?_, ?_⟩
      · exact dfGet?_col_length test_df c0 col n hwf hcol
      · intro c hc
        obtain rfl : c0 = c := by simpa using hc
        exact ⟨col, hcol, rfl⟩
      · intro hc
        exact absurd hc (by simp)
    | none =>
      have hids' : test_ids = none := by
        rw [hids, hid]
        rfl
      have hidc' : id_col = none := by rw [hidc, hid]
      rw [hids', hidc'] at hsub
      simp only [Option.some.injEq] at hsub
      subst hsub
      refine ⟨hplen, by simpa using hplen, rfl, hint, rfl, by simp, ?_, ?_⟩
      · intro c hc
        exact absurd hc (by simp)
      · intro _
        simp only []
        rw [hplen]

/-- C8 witness: a classification submission on concrete frames — the target
column is the integer-coerced predictions and the identifier column is the
test table's `Id` values. -/
theorem submission_shape_witness :
    (∀ p ∈ witTestDF, p.2.length = 2) ∧
    ([mkRat 3 2, 2] : List ℚ).length = 2 ∧
    make_submission witTrainDF witTestDF "t" "classification" [mkRat 3 2, 2] =
      some ⟨"Id", "t", [Cell.num 20, Cell.num 21], [1, 2]⟩ ∧
    (⟨"Id", "t", [Cell.num 20, Cell.num 21], ([1, 2] : List ℚ)⟩ : Submission).target_vals.length = 2 ∧
    (∀ v ∈ (⟨"Id", "t", [Cell.num 20, Cell.num 21], ([1, 2] : List ℚ)⟩ : Submission).target_vals,
      ∃ k : ℤ, v = (k : ℚ)) := by
  have h := submission_shape witTrainDF witTestDF "t" "classification" [mkRat 3 2, 2] 2
    ⟨"Id", "t", [Cell.num 20, Cell.num 21], [1, 2]⟩ (by decide) (by decide) (by decide)
  exact ⟨by decide, by decide, by decide, h.1, h.2.2.2.1 rfl⟩
